import Mathlib

/-!
# proxy-apiserver: the identity-remapping storage adapter

A shallow embedding of `pkg/storage/storage.go` and the properties of its
specification.

Conventions of the embedding.

* A Go `map[string]interface{}` is an association list read by first match and
  written by replace-or-append; a nil map is `none`.
* A pointer to an `unstructured.Unstructured` is the value it points to; a
  method that mutates its receiver returns the mutated value.
* The backing `dynamic` client is a record of state transformers over an
  arbitrary store type; every call made through it is appended to a call log.
* A Go run-time panic is the `Go.panicked` result.
-/

namespace ProxyApiserver

/-! ## Generic documents (`unstructured`) -/

/-- The values a decoded JSON document may hold. -/
inductive Value where
  | str (s : String)
  | num (n : Int)
  | flag (b : Bool)
  | null
  | arr (items : List Value)
  | obj (fields : List (String × Value))
  deriving Repr, Inhabited

/-- A Go `map[string]interface{}` that is not nil. -/
abbrev Doc := List (String × Value)

/-- Map read `m[k]`: the value bound to `k`, if any. -/
def Doc.get : Doc → String → Option Value
  | [], _ => none
  | (k', v) :: rest, k => if k' = k then some v else Doc.get rest k

/-- Map write `m[k] = v`. -/
def Doc.set : Doc → String → Value → Doc
  | [], k, v => [(k, v)]
  | (k', v') :: rest, k, v => if k' = k then (k, v) :: rest else (k', v') :: Doc.set rest k v

/-- The function `unstructured.NestedFieldNoCopy`; `none` stands for both "not found" and
the type error of walking through a non-map. -/
def NestedFieldNoCopy : Value → List String → Option Value
  | v, [] => some v
  | .obj m, f :: fs =>
    match Doc.get m f with
    | none => none
    | some v => NestedFieldNoCopy v fs
  | _, _ :: _ => none

/-- The function `unstructured.getNestedString`: the string at the path, `""` when the path is
absent or does not hold a string. -/
def getNestedString (obj : Option Doc) (fields : List String) : String :=
  match NestedFieldNoCopy (.obj (obj.getD [])) fields with
  | some (.str s) => s
  | _ => ""

/-- The type `unstructured.Unstructured`; `Object = none` is the nil map of the zero value. -/
structure Unstructured where
  Object : Option Doc
  deriving Repr, Inhabited

/-- The method `(*Unstructured).setNestedField` for a one-element path: allocates the map when it
is nil, then writes the field. -/
def Unstructured.setNestedField (u : Unstructured) (value : Value) (field : String) :
    Unstructured :=
  { Object := some (Doc.set (u.Object.getD []) field value) }

def Unstructured.SetAPIVersion (u : Unstructured) (version : String) : Unstructured :=
  u.setNestedField (.str version) "apiVersion"

def Unstructured.SetKind (u : Unstructured) (kind : String) : Unstructured :=
  u.setNestedField (.str kind) "kind"

def Unstructured.GetAPIVersion (u : Unstructured) : String :=
  getNestedString u.Object ["apiVersion"]

def Unstructured.GetKind (u : Unstructured) : String :=
  getNestedString u.Object ["kind"]

def Unstructured.GetName (u : Unstructured) : String :=
  getNestedString u.Object ["metadata", "name"]

def Unstructured.GetUID (u : Unstructured) : String :=
  getNestedString u.Object ["metadata", "uid"]

def Unstructured.GetResourceVersion (u : Unstructured) : String :=
  getNestedString u.Object ["metadata", "resourceVersion"]

/-- Top-level field `k` of the document, `none` when absent (also for a nil map). -/
def Unstructured.field (u : Unstructured) (k : String) : Option Value :=
  Doc.get (u.Object.getD []) k

/-- The type `unstructured.UnstructuredList`. -/
structure UnstructuredList where
  Object : Option Doc
  Items : List Unstructured
  deriving Repr, Inhabited

def UnstructuredList.setNestedField (u : UnstructuredList) (value : Value) (field : String) :
    UnstructuredList :=
  { u with Object := some (Doc.set (u.Object.getD []) field value) }

def UnstructuredList.SetAPIVersion (u : UnstructuredList) (version : String) : UnstructuredList :=
  u.setNestedField (.str version) "apiVersion"

def UnstructuredList.SetKind (u : UnstructuredList) (kind : String) : UnstructuredList :=
  u.setNestedField (.str kind) "kind"

def UnstructuredList.GetAPIVersion (u : UnstructuredList) : String :=
  getNestedString u.Object ["apiVersion"]

def UnstructuredList.GetKind (u : UnstructuredList) : String :=
  getNestedString u.Object ["kind"]

/-! ## Resource identities -/

/-- The type `schema.GroupVersion`. -/
structure GroupVersion where
  Group : String
  Version : String
  deriving Repr, DecidableEq, Inhabited

def GroupVersion.Empty (gv : GroupVersion) : Bool :=
  decide (gv.Group = "") && decide (gv.Version = "")

/-- The method `schema.GroupVersion.String`. -/
def GroupVersion.String (gv : GroupVersion) : String :=
  if gv.Empty then ""
  else if gv.Group = "" ∧ gv.Version = "v1" then gv.Version
  else if gv.Group ≠ "" then gv.Group ++ "/" ++ gv.Version
  else gv.Version

/-- The type `GroupVersionKindResource` (the embedded `schema.GroupVersion` is the first
field). -/
structure GroupVersionKindResource where
  GroupVersion : GroupVersion
  Kind : String
  Resource : String
  deriving Repr, DecidableEq, Inhabited

/-- The method `GroupVersionKindResource.Assign`, on the object the pointer refers to. -/
def GroupVersionKindResource.Assign (r : GroupVersionKindResource) (o : Unstructured) :
    Unstructured :=
  let u := o
  let u := u.SetAPIVersion r.GroupVersion.String
  let u := u.SetKind r.Kind
  u

/-- One iteration of `for _, item := range ul.Items { r.Assign(&item) }`, seen from the slice
element. The loop variable is a copy of the element: the writes of `Assign` reach the element
through the map the two share, and when the element's map is nil the map that `setNestedField`
allocates belongs to the copy alone. -/
def GroupVersionKindResource.assignRangeCopy (r : GroupVersionKindResource)
    (element : Unstructured) : Unstructured :=
  let item := element
  let item := r.Assign item
  match element.Object with
  | none => element
  | some _ => item

/-- The method `GroupVersionKindResource.AssignList`. -/
def GroupVersionKindResource.AssignList (r : GroupVersionKindResource) (o : UnstructuredList) :
    UnstructuredList :=
  let ul := o
  let ul := ul.SetAPIVersion r.GroupVersion.String
  let ul := ul.SetKind (r.Kind ++ "List")
  { ul with Items := ul.Items.map r.assignRangeCopy }

/-- The type `mapper`. -/
structure mapper where
  External : GroupVersionKindResource
  Internal : GroupVersionKindResource
  deriving Repr, DecidableEq, Inhabited

/-! ## Errors, panics and options -/

/-- A Go `error` value: an API status error (`k8s.io/apimachinery/pkg/api/errors`) with its
reason, or any other error, such as one built by `fmt.Errorf`. -/
inductive Err where
  | status (reason : String) (message : String)
  | plain (message : String)
  deriving Repr, DecidableEq, Inhabited

/-- The function `errors.IsNotFound`. -/
def IsNotFound : Err → Bool
  | .status reason _ => decide (reason = "NotFound")
  | .plain _ => false

/-- The function `errors.IsConflict`. -/
def IsConflict : Err → Bool
  | .status reason _ => decide (reason = "Conflict")
  | .plain _ => false

/-- The result of running Go code: it returns, or a run-time panic unwinds it. -/
inductive Go (α : Type) where
  | done (a : α)
  | panicked (what : String)
  deriving Repr

/-- The panic of reading through a nil pointer. -/
def nilDereference : String := "invalid memory address or nil pointer dereference"

structure GetOptions where
  ResourceVersion : String := ""
  deriving Repr, DecidableEq, Inhabited

structure CreateOptions where
  DryRun : List String := []
  FieldManager : String := ""
  deriving Repr, DecidableEq, Inhabited

structure UpdateOptions where
  DryRun : List String := []
  FieldManager : String := ""
  deriving Repr, DecidableEq, Inhabited

/-- The type `metav1.Preconditions`; an absent pointer field is `none`. -/
structure Preconditions where
  UID : Option String := none
  ResourceVersion : Option String := none
  deriving Repr, DecidableEq, Inhabited

structure DeleteOptions where
  GracePeriodSeconds : Option Int := none
  Preconditions : Option Preconditions := none
  PropagationPolicy : Option String := none
  DryRun : List String := []
  deriving Repr, DecidableEq, Inhabited

/-- The type `metav1.ListOptions`. -/
structure ListOptions where
  LabelSelector : String := ""
  FieldSelector : String := ""
  Watch : Bool := false
  ResourceVersion : String := ""
  TimeoutSeconds : Option Int := none
  Limit : Int := 0
  Continue : String := ""
  deriving Repr, DecidableEq, Inhabited

/-- The type `metainternalversion.ListOptions`; a selector is given by its rendering, `none` for
a nil selector. -/
structure InternalListOptions where
  LabelSelector : Option String := none
  FieldSelector : Option String := none
  Watch : Bool := false
  ResourceVersion : String := ""
  TimeoutSeconds : Option Int := none
  Limit : Int := 0
  Continue : String := ""
  deriving Repr, DecidableEq, Inhabited

/-- The generated conversion `Convert_internalversion_ListOptions_To_v1_ListOptions`: copies the
fields and renders the selectors; it has no failing branch. -/
def Convert_internalversion_ListOptions_To_v1_ListOptions (o : InternalListOptions) :
    Except Err ListOptions :=
  .ok { LabelSelector := o.LabelSelector.getD "", FieldSelector := o.FieldSelector.getD "",
        Watch := o.Watch, ResourceVersion := o.ResourceVersion,
        TimeoutSeconds := o.TimeoutSeconds, Limit := o.Limit, Continue := o.Continue }

def toMetaListOptions (options : Option InternalListOptions) : Except Err ListOptions :=
  match options with
  | none => .ok {}
  | some o =>
    match Convert_internalversion_ListOptions_To_v1_ListOptions o with
    | .error err => .error err
    | .ok lo => .ok lo

/-- The request context, as far as the adapter reads it: the namespace that
`request.NamespaceFrom` finds, if any. -/
structure Context where
  ns : Option String := none
  deriving Repr, DecidableEq, Inhabited

/-- The type `rest.ValidateObjectFunc`: `none` accepts. -/
abbrev ValidateObjectFunc := Unstructured → Option Err

/-- The type `rest.ValidateObjectUpdateFunc`, applied to the new and the old object. -/
abbrev ValidateObjectUpdateFunc := Unstructured → Unstructured → Option Err

/-- The interface `rest.UpdatedObjectInfo`. -/
structure UpdatedObjectInfo where
  Preconditions : Option Preconditions
  UpdatedObject : Context → Unstructured → Except Err Unstructured

/-! ## The backing client and its call log -/

/-- The handle a backing watch returns (its events arrive later, on its channel). -/
structure WatchHandle where
  id : Nat := 0
  deriving Repr, DecidableEq, Inhabited

/-- The interface `dynamic.NamespaceableResourceInterface` over a store of type `σ`. The first
argument of an operation is the scope of the handle it is called on: `none` for the
cluster-wide handle, `some ns` for the handle `Namespace(ns)`. -/
structure NamespaceableResourceInterface (σ : Type) where
  Create : Option String → Unstructured → CreateOptions → σ → Except Err Unstructured × σ
  Update : Option String → Unstructured → UpdateOptions → σ → Except Err Unstructured × σ
  Delete : Option String → String → Option DeleteOptions → σ → Option Err × σ
  Get : Option String → String → GetOptions → σ → Except Err Unstructured × σ
  List : Option String → ListOptions → σ → Except Err UnstructuredList × σ
  Watch : Option String → ListOptions → σ → Except Err WatchHandle × σ

/-- One call received by the backing client. -/
inductive Call where
  | Create (scope : Option String) (obj : Unstructured) (options : CreateOptions)
  | Update (scope : Option String) (obj : Unstructured) (options : UpdateOptions)
  | Delete (scope : Option String) (name : String) (options : Option DeleteOptions)
  | Get (scope : Option String) (name : String) (options : GetOptions)
  | List (scope : Option String) (options : ListOptions)
  | Watch (scope : Option String) (options : ListOptions)
  deriving Repr

/-- The scope of the handle a call was made on. -/
def Call.scope : Call → Option String
  | .Create scope _ _ => scope
  | .Update scope _ _ => scope
  | .Delete scope _ _ => scope
  | .Get scope _ _ => scope
  | .List scope _ => scope
  | .Watch scope _ => scope

def Call.isCreate : Call → Bool
  | .Create _ _ _ => true
  | _ => false

def Call.isUpdate : Call → Bool
  | .Update _ _ _ => true
  | _ => false

def Call.isDelete : Call → Bool
  | .Delete _ _ _ => true
  | _ => false

/-- The backing store together with the calls the backing client has received, oldest
first. -/
structure World (σ : Type) where
  store : σ
  calls : List Call

/-- The interface `dynamic.ResourceInterface`: a handle of the backing client with its scope
fixed. -/
structure ResourceInterface (σ : Type) where
  client : NamespaceableResourceInterface σ
  scope : Option String

def ResourceInterface.Create {σ : Type} (c : ResourceInterface σ) (obj : Unstructured)
    (options : CreateOptions) (w : World σ) : Except Err Unstructured × World σ :=
  ((c.client.Create c.scope obj options w.store).1,
   { store := (c.client.Create c.scope obj options w.store).2,
     calls := w.calls ++ [Call.Create c.scope obj options] })

def ResourceInterface.Update {σ : Type} (c : ResourceInterface σ) (obj : Unstructured)
    (options : UpdateOptions) (w : World σ) : Except Err Unstructured × World σ :=
  ((c.client.Update c.scope obj options w.store).1,
   { store := (c.client.Update c.scope obj options w.store).2,
     calls := w.calls ++ [Call.Update c.scope obj options] })

def ResourceInterface.Delete {σ : Type} (c : ResourceInterface σ) (name : String)
    (options : Option DeleteOptions) (w : World σ) : Option Err × World σ :=
  ((c.client.Delete c.scope name options w.store).1,
   { store := (c.client.Delete c.scope name options w.store).2,
     calls := w.calls ++ [Call.Delete c.scope name options] })

def ResourceInterface.Get {σ : Type} (c : ResourceInterface σ) (name : String)
    (options : GetOptions) (w : World σ) : Except Err Unstructured × World σ :=
  ((c.client.Get c.scope name options w.store).1,
   { store := (c.client.Get c.scope name options w.store).2,
     calls := w.calls ++ [Call.Get c.scope name options] })

def ResourceInterface.List {σ : Type} (c : ResourceInterface σ) (options : ListOptions)
    (w : World σ) : Except Err UnstructuredList × World σ :=
  ((c.client.List c.scope options w.store).1,
   { store := (c.client.List c.scope options w.store).2,
     calls := w.calls ++ [Call.List c.scope options] })

def ResourceInterface.Watch {σ : Type} (c : ResourceInterface σ) (options : ListOptions)
    (w : World σ) : Except Err WatchHandle × World σ :=
  ((c.client.Watch c.scope options w.store).1,
   { store := (c.client.Watch c.scope options w.store).2,
     calls := w.calls ++ [Call.Watch c.scope options] })

/-! ## The watch relay -/

/-- The type `watch.EventType`. -/
inductive EventType where
  | Added
  | Modified
  | Deleted
  | Bookmark
  | Error
  deriving Repr, DecidableEq, Inhabited

/-- The type `watch.Event`. -/
structure Event where
  Typ : EventType
  Object : Unstructured
  deriving Repr, Inhabited

/-- The library variable `watch.DefaultChanSize`. -/
def DefaultChanSize : Nat := 100

/-- The type `watch.RaceFreeFakeWatcher`: `result` is the content of its buffered channel, oldest
event first, `capacity` the channel's buffer size, `closes` the number of times the channel has
been closed. -/
structure RaceFreeFakeWatcher where
  result : List Event
  capacity : Nat
  Stopped : Bool
  closes : Nat
  deriving Repr, Inhabited

/-- The function `watch.NewRaceFreeFake`: `result: make(chan Event, DefaultChanSize)`. -/
def NewRaceFreeFake : RaceFreeFakeWatcher :=
  { result := [], capacity := DefaultChanSize, Stopped := false, closes := 0 }

/-- The statement `close(f.result)`: closing a channel that is already closed panics. -/
def RaceFreeFakeWatcher.close (f : RaceFreeFakeWatcher) : Go RaceFreeFakeWatcher :=
  if f.closes = 0 then .done { f with closes := f.closes + 1 }
  else .panicked "close of closed channel"

/-- The method `RaceFreeFakeWatcher.Stop`: unless already stopped, closes the channel and sets
`Stopped`. Events already in the buffer stay readable. -/
def RaceFreeFakeWatcher.Stop (f : RaceFreeFakeWatcher) : Go RaceFreeFakeWatcher :=
  if !f.Stopped then
    match f.close with
    | .done f1 => .done { f1 with Stopped := true }
    | .panicked p => .panicked p
  else .done f

/-- The method `RaceFreeFakeWatcher.Action`: when not stopped, a non-blocking send
(`select` with a `default` branch) that panics with `channel full` when the buffer has no room
(and, as every send does, when the channel is closed); when stopped, nothing. -/
def RaceFreeFakeWatcher.Action (f : RaceFreeFakeWatcher) (action : EventType)
    (obj : Unstructured) : Go RaceFreeFakeWatcher :=
  if !f.Stopped then
    if f.closes ≠ 0 then .panicked "send on closed channel"
    else if f.result.length < f.capacity then
      .done { f with result := f.result ++ [{ Typ := action, Object := obj }] }
    else .panicked "channel full"
  else .done f

/-- The type `watcher`. The backing watch `wi` is represented by whether `Stop` was called on
it (its `Stop` may be called any number of times, as on the stream watcher the dynamic client
returns); the events it delivers are the `emit` entries of the timeline given to `run`. -/
structure watcher where
  wiStopped : Bool
  mapper : Unstructured → Unstructured
  wrapper : RaceFreeFakeWatcher

/-- What happens next around a running relay: the backing channel delivers an event to the
loop of `run`, or the consumer receives one event from `ResultChan()`. -/
inductive Tick where
  | emit (e : Event)
  | recv
  deriving Repr, Inhabited

/-- The events the backing watch emits along a timeline, in order. -/
def emitted : List Tick → List Event
  | [] => []
  | .emit e :: rest => e :: emitted rest
  | .recv :: rest => emitted rest

/-- A relay together with the events its consumer has received so far, oldest first. -/
structure Relay where
  w : watcher
  received : List Event

/-- Everything the relay has published: what the consumer received, then what waits in the
channel. -/
def Relay.published (s : Relay) : List Event :=
  s.received ++ s.w.wrapper.result

/-- The consumer receives from `w.ResultChan()`: the oldest buffered event, if there is one. -/
def Relay.receive (s : Relay) : Relay :=
  match s.w.wrapper.result with
  | [] => s
  | e :: rest => { w := { s.w with wrapper := { s.w.wrapper with result := rest } },
                   received := s.received ++ [e] }

/-- The body of the `for e := range w.wi.ResultChan()` loop of `watcher.run`. -/
def watcher.relay (w : watcher) (e : Event) : Go watcher :=
  if e.Typ ≠ EventType.Error then
    match w.wrapper.Action e.Typ (w.mapper e.Object) with
    | .done f => .done { w with wrapper := f }
    | .panicked p => .panicked p
  else
    match w.wrapper.Action e.Typ e.Object with
    | .done f => .done { w with wrapper := f }
    | .panicked p => .panicked p

/-- The method `watcher.run` along a timeline: the loop body runs for each event the backing
channel delivers, the consumer's receives fall in between, and when the backing channel is
closed (the timeline ends) the deferred `w.wrapper.Stop()` runs. A panic in the loop body ends
the program. -/
def watcher.run : List Tick → Relay → Go Relay
  | [], s =>
    match s.w.wrapper.Stop with
    | .done f => .done { s with w := { s.w with wrapper := f } }
    | .panicked p => .panicked p
  | .emit e :: rest, s =>
    match s.w.relay e with
    | .done w1 => watcher.run rest { s with w := w1 }
    | .panicked p => .panicked p
  | .recv :: rest, s => watcher.run rest s.receive

/-- The method `watcher.Stop`: `w.wi.Stop()`, then `w.wrapper.Stop()`. -/
def watcher.Stop (w : watcher) : Go watcher :=
  let w1 : watcher := { w with wiStopped := true }
  match w1.wrapper.Stop with
  | .done f => .done { w1 with wrapper := f }
  | .panicked p => .panicked p

/-- The function `newWrappedWatcher`, up to starting `run`. -/
def newWrappedWatcher (mapper : Unstructured → Unstructured) (_wi : WatchHandle) : watcher :=
  { mapper := mapper, wiStopped := false, wrapper := NewRaceFreeFake }

/-- The states of the relay (specification 4.4). -/
inductive RelayState where
  | Running
  | Stopped
  deriving Repr, DecidableEq, Inhabited

/-- The state a relay is in: `Stopped` once its output sink is stopped. -/
def watcher.state (w : watcher) : RelayState :=
  if w.wrapper.Stopped then .Stopped else .Running

/-- What can happen to a relay after `newWrappedWatcher`: the loop of `run` relays an event of
the backing channel, the consumer receives an event, the backing channel closes (the loop of
`run` ends and its deferred `w.wrapper.Stop()` runs), or the owner calls `Stop()`. -/
inductive RelayOp where
  | emit (e : Event)
  | recv
  | closure
  | stop
  deriving Repr, Inhabited

def Relay.step (s : Relay) : RelayOp → Go Relay
  | .emit e =>
    match s.w.relay e with
    | .done w1 => .done { s with w := w1 }
    | .panicked p => .panicked p
  | .recv => .done s.receive
  | .closure =>
    match s.w.wrapper.Stop with
    | .done f => .done { s with w := { s.w with wrapper := f } }
    | .panicked p => .panicked p
  | .stop =>
    match s.w.Stop with
    | .done w1 => .done { s with w := w1 }
    | .panicked p => .panicked p

/-- The relay after a sequence of happenings, in any order; a panic ends it. -/
def Relay.exec : List RelayOp → Relay → Go Relay
  | [], s => .done s
  | op :: rest, s =>
    match s.step op with
    | .done s1 => Relay.exec rest s1
    | .panicked p => .panicked p

/-! ## The storage adapter -/

/-- The type `restStorage`. -/
structure restStorage (σ : Type) where
  categories : List String
  shortNames : List String
  mapper : mapper
  namespaceScoped : Bool
  client : NamespaceableResourceInterface σ

variable {σ : Type}

def restStorage.Categories (r : restStorage σ) : List String := r.categories

def restStorage.ShortNames (r : restStorage σ) : List String := r.shortNames

def restStorage.NamespaceScoped (r : restStorage σ) : Bool := r.namespaceScoped

def restStorage.getClient (r : restStorage σ) (ctx : Context) : ResourceInterface σ :=
  match ctx.ns with
  | some ns => { client := r.client, scope := some ns }
  | none => { client := r.client, scope := none }

def restStorage.NewList (r : restStorage σ) : UnstructuredList :=
  let ul : UnstructuredList := { Object := none, Items := [] }
  r.mapper.External.AssignList ul

def restStorage.New (r : restStorage σ) : Unstructured :=
  let u : Unstructured := { Object := none }
  r.mapper.External.Assign u

def restStorage.Get (r : restStorage σ) (ctx : Context) (name : String)
    (options : Option GetOptions) (w : World σ) : Except Err Unstructured × World σ :=
  let options : GetOptions := match options with
    | none => {}
    | some o => o
  match (r.getClient ctx).Get name options w with
  | (.error err, w1) => (.error err, w1)
  | (.ok u, w1) => (.ok (r.mapper.External.Assign u), w1)

def restStorage.Create (r : restStorage σ) (ctx : Context) (obj : Unstructured)
    (createValidation : ValidateObjectFunc) (options : Option CreateOptions) (w : World σ) :
    Go (Except Err Unstructured) × World σ :=
  match createValidation obj with
  | some err => (.done (.error err), w)
  | none =>
    let orig := r.mapper.Internal.Assign obj
    -- `if options != nil { options = &metav1.CreateOptions{} }`
    let options : Option CreateOptions := match options with
      | some _ => some {}
      | none => none
    -- `*options`
    match options with
    | none => (.panicked nilDereference, w)
    | some o =>
      match (r.getClient ctx).Create orig o w with
      | (.error err, w1) => (.done (.error err), w1)
      | (.ok created, w1) => (.done (.ok (r.mapper.External.Assign created)), w1)

/-- The precondition checks of `Update`, on the object about to be sent to the backing store:
the error of the first check that fails. -/
def checkPreconditions (pc : Option Preconditions) (orig : Unstructured) : Option Err :=
  match pc with
  | none => none
  | some pc =>
    match pc.UID with
    | some uid =>
      if uid ≠ orig.GetUID then some (.plain "failed uid precondition")
      else match pc.ResourceVersion with
        | some rv =>
          if rv ≠ orig.GetResourceVersion then some (.plain "failed resourceVersion precondition")
          else none
        | none => none
    | none =>
      match pc.ResourceVersion with
      | some rv =>
        if rv ≠ orig.GetResourceVersion then some (.plain "failed resourceVersion precondition")
        else none
      | none => none

/-- The method `restStorage.Update`; the second component of a result is the `created` flag. -/
def restStorage.Update (r : restStorage σ) (ctx : Context) (name : String)
    (objInfo : UpdatedObjectInfo) (createValidation : ValidateObjectFunc)
    (_updateValidation : ValidateObjectUpdateFunc) (forceAllowCreate : Bool)
    (options : Option UpdateOptions) (w : World σ) :
    Go (Except Err (Unstructured × Bool)) × World σ :=
  match r.Get ctx name none w with
  | (.error err, w1) =>
    if IsNotFound err && forceAllowCreate then
      match objInfo.UpdatedObject ctx r.New with
      | .error err => (.done (.error err), w1)
      | .ok newObj =>
        match r.Create ctx newObj createValidation none w1 with
        | (.panicked p, w2) => (.panicked p, w2)
        | (.done (.error err), w2) => (.done (.error err), w2)
        | (.done (.ok c), w2) => (.done (.ok (c, true)), w2)
    else (.done (.error err), w1)
  | (.ok o, w1) =>
    match objInfo.UpdatedObject ctx o with
    | .error err => (.done (.error err), w1)
    | .ok updated =>
      let orig := r.mapper.Internal.Assign updated
      match checkPreconditions objInfo.Preconditions orig with
      | some err => (.done (.error err), w1)
      | none =>
        -- `if options != nil { options = &metav1.UpdateOptions{} }`
        let options : Option UpdateOptions := match options with
          | some _ => some {}
          | none => none
        -- `*options`
        match options with
        | none => (.panicked nilDereference, w1)
        | some o =>
          match (r.getClient ctx).Update orig o w1 with
          | (.error err, w2) => (.done (.error err), w2)
          | (.ok returned, w2) => (.done (.ok (r.mapper.External.Assign returned, false)), w2)

def restStorage.List (r : restStorage σ) (ctx : Context) (options : Option InternalListOptions)
    (w : World σ) : Except Err UnstructuredList × World σ :=
  match toMetaListOptions options with
  | .error err => (.error err, w)
  | .ok lo =>
    match (r.getClient ctx).List lo w with
    | (.error err, w1) => (.error err, w1)
    | (.ok ul, w1) => (.ok (r.mapper.External.AssignList ul), w1)

def restStorage.Watch (r : restStorage σ) (ctx : Context) (options : Option InternalListOptions)
    (w : World σ) : Except Err watcher × World σ :=
  match toMetaListOptions options with
  | .error err => (.error err, w)
  | .ok lo =>
    match (r.getClient ctx).Watch lo w with
    | (.error err, w1) => (.error err, w1)
    | (.ok wi, w1) => (.ok (newWrappedWatcher r.mapper.External.Assign wi), w1)

/-- The method `restStorage.Delete`; the second component of a result is the flag "deleted
immediately". -/
def restStorage.Delete (r : restStorage σ) (ctx : Context) (name : String)
    (deleteValidation : ValidateObjectFunc) (options : Option DeleteOptions) (w : World σ) :
    Except Err (Unstructured × Bool) × World σ :=
  match r.Get ctx name (some {}) w with
  | (.error err, w1) => (.error err, w1)
  | (.ok obj, w1) =>
    match deleteValidation obj with
    | some err => (.error err, w1)
    | none =>
      let orig := r.mapper.Internal.Assign obj
      match (r.getClient ctx).Delete orig.GetName options w1 with
      | (some err, w2) => (.error err, w2)
      | (none, w2) => (.ok (r.mapper.External.Assign orig, false), w2)

/-- The loop `for _, i := range ul.Items` of `DeleteCollection`, with the list `deleted`
accumulated so far: it returns `deleted` and the error of the first `Delete` that fails. -/
def deleteItems (r : restStorage σ) (ctx : Context)
    (deleteValidation : ValidateObjectFunc) (options : Option DeleteOptions) :
    List Unstructured → UnstructuredList → World σ → (UnstructuredList × Option Err) × World σ
  | [], deleted, w => ((deleted, none), w)
  | i :: rest, deleted, w =>
    match r.Delete ctx i.GetName deleteValidation options w with
    | (.error err, w1) => ((deleted, some err), w1)
    | (.ok (o, _), w1) =>
      deleteItems r ctx deleteValidation options rest
        { deleted with Items := deleted.Items ++ [o] } w1

/-- The method `restStorage.DeleteCollection`; a result is the returned list (`none` for nil)
and the returned error (`none` for nil). -/
def restStorage.DeleteCollection (r : restStorage σ) (ctx : Context)
    (deleteValidation : ValidateObjectFunc) (options : Option DeleteOptions)
    (listOptions : Option InternalListOptions) (w : World σ) :
    (Option UnstructuredList × Option Err) × World σ :=
  match r.List ctx listOptions w with
  | (.error err, w1) => ((none, some err), w1)
  | (.ok l, w1) =>
    let deleted := r.NewList
    let ul := l
    match deleteItems r ctx deleteValidation options ul.Items deleted w1 with
    | ((deleted, err), w2) => ((some deleted, err), w2)

/-- The function `NewREST`; `client` is the resource handle `client.Resource(...)` of the
internal group, version and resource. -/
def NewREST (extR intR : GroupVersionKindResource) (nsScoped : Bool)
    (client : NamespaceableResourceInterface σ) (shortNames categories : List String) :
    restStorage σ :=
  { mapper := { External := extR, Internal := intR },
    categories := categories,
    shortNames := shortNames,
    namespaceScoped := nsScoped,
    client := client }

/-! ## Specification vocabulary -/

/-- Deleting the given items one after the other succeeds, from world `w` to world `w'`, and
`fetched` lists the objects the backing `Get` returns for them: for each item in turn, `Get` by
the item's name returns an object, the validation accepts that object as the adapter presents
it, and the backing `Delete` of that object's name succeeds. -/
def DeletesSucceed (r : restStorage σ) (ctx : Context) (deleteValidation : ValidateObjectFunc)
    (options : Option DeleteOptions) :
    List Unstructured → List Unstructured → World σ → World σ → Prop
  | [], [], w, w' => w' = w
  | x :: rest, g :: gs, w, w' =>
    ∃ w1 w2, (r.getClient ctx).Get x.GetName {} w = (.ok g, w1)
      ∧ deleteValidation (r.mapper.External.Assign g) = none
      ∧ (r.getClient ctx).Delete g.GetName options w1 = (none, w2)
      ∧ DeletesSucceed r ctx deleteValidation options rest gs w2 w'
  | _, _, _, _ => False

/-- The event the relay is to publish for a backing event, in the words of the specification:
a non-`Error` event with its object stamped with the external identity, an `Error` event as it
is. -/
def remapped (ext : GroupVersionKindResource) (e : Event) : Event :=
  if e.Typ ≠ EventType.Error then { e with Object := ext.Assign e.Object } else e

/-- Along the timeline the relay's channel, of the given capacity and holding `n` events at
the start, has room each time the backing watch delivers an event. -/
def hasRoom (capacity : Nat) : List Tick → Nat → Bool
  | [], _ => true
  | .emit _ :: rest, n => decide (n < capacity) && hasRoom capacity rest (n + 1)
  | .recv :: rest, n => hasRoom capacity rest (n - 1)

/-- From world `w` to world `w'` the backing client received calls only on the handle of scope
`ns`: the call log grew by calls that all carry that scope. -/
def CallsScoped (ns : Option String) (w w' : World σ) : Prop :=
  ∃ new : List Call, w'.calls = w.calls ++ new ∧ ∀ c ∈ new, c.scope = ns

/-- The sink's channel has been closed exactly when the sink is stopped, and then once. -/
def RaceFreeFakeWatcher.consistent (f : RaceFreeFakeWatcher) : Prop :=
  f.closes = if f.Stopped then 1 else 0

/-- A tick of a timeline as a happening of the relay. -/
def Tick.toOp : Tick → RelayOp
  | .emit e => .emit e
  | .recv => .recv

/-! ## A spy backing client and sample data -/

/-- An in-memory backing store: the stored objects, and the names whose deletion it
refuses. -/
structure FakeStore where
  objects : List Unstructured
  failDelete : List String

def notFound (name : String) : Err := .status "NotFound" name

/-- A backing client over `FakeStore`; it serves every scope from the same objects. -/
def fakeClient : NamespaceableResourceInterface FakeStore :=
  { Create := fun _ obj _ s => (.ok obj, { s with objects := s.objects ++ [obj] }),
    Update := fun _ obj _ s =>
      (.ok obj,
       { s with objects := s.objects.map fun o => if o.GetName = obj.GetName then obj else o }),
    Delete := fun _ name _ s =>
      if name ∈ s.failDelete then (some (.plain ("cannot delete " ++ name)), s)
      else (none, { s with objects := s.objects.filter fun o => decide (o.GetName ≠ name) }),
    Get := fun _ name _ s =>
      match s.objects.find? fun o => decide (o.GetName = name) with
      | some o => (.ok o, s)
      | none => (.error (notFound name), s),
    List := fun _ _ s => (.ok { Object := some [], Items := s.objects }, s),
    Watch := fun _ _ s => (.ok {}, s) }

/-- The identities `apiGroup` configures: `apps.maisem.dev/v1` outside, `apps/v1` inside. -/
def extR : GroupVersionKindResource :=
  { GroupVersion := { Group := "apps.maisem.dev", Version := "v1" },
    Kind := "Deployment", Resource := "deployments" }

def intR : GroupVersionKindResource :=
  { GroupVersion := { Group := "apps", Version := "v1" },
    Kind := "Deployment", Resource := "deployments" }

def sampleStorage : restStorage FakeStore :=
  NewREST extR intR true fakeClient ["mdep"] ["all"]

/-- A stored deployment with the given name and UID. -/
def stored (name uid : String) : Unstructured :=
  { Object := some [("apiVersion", .str "apps/v1"), ("kind", .str "Deployment"),
                    ("metadata", .obj [("name", .str name), ("uid", .str uid)]),
                    ("spec", .obj [("replicas", .num 1)])] }

def world (objects : List Unstructured) (failDelete : List String) : World FakeStore :=
  { store := { objects := objects, failDelete := failDelete }, calls := [] }

def acceptAll : ValidateObjectFunc := fun _ => none

def rejectAll : ValidateObjectFunc := fun _ => some (.plain "denied")

def rejectAllUpdates : ValidateObjectUpdateFunc := fun _ _ => some (.plain "update denied")

def acceptAllUpdates : ValidateObjectUpdateFunc := fun _ _ => none

/-- An update whose new object carries UID `u2`, sent with the precondition UID `u2`. -/
def changesUID : UpdatedObjectInfo :=
  { Preconditions := some { UID := some "u2" },
    UpdatedObject := fun _ _ => .ok (stored "a" "u2") }

/-- An update that returns the current object as it is, without preconditions. -/
def keepsObject : UpdatedObjectInfo :=
  { Preconditions := none,
    UpdatedObject := fun _ o => .ok o }

/-- An update whose new object carries UID `u1`, sent with the precondition UID `u2`. -/
def keepsU1 : UpdatedObjectInfo :=
  { Preconditions := some { UID := some "u2" },
    UpdatedObject := fun _ _ => .ok (stored "a" "u1") }

/-- An update whose transform fails, sent with the precondition UID `u2`. -/
def failingUpdate : UpdatedObjectInfo :=
  { Preconditions := some { UID := some "u2" },
    UpdatedObject := fun _ _ => .error (.plain "cannot compute the update") }

/-- An update that returns the current object as it is, sent with the precondition UID `u2`. -/
def expectsU2 : UpdatedObjectInfo :=
  { Preconditions := some { UID := some "u2" },
    UpdatedObject := fun _ o => .ok o }

/-- A world whose store holds the objects `a`, `b`, `c` and refuses to delete `b`. -/
def threeObjects : World FakeStore :=
  world [stored "a" "u1", stored "b" "u2", stored "c" "u3"] ["b"]

/-- Another revision of a stored object: the same document with a `status` written since. -/
def revised (o : Unstructured) : Unstructured :=
  { Object := some (Doc.set (o.Object.getD []) "status" (.str "revised")) }

/-- A backing client whose objects change between `List` and `Get`: `List` returns the stored
objects, `Get` returns their next revision. -/
def revisingClient : NamespaceableResourceInterface FakeStore :=
  { fakeClient with
    Get := fun scope name options s =>
      match fakeClient.Get scope name options s with
      | (.ok o, s1) => (.ok (revised o), s1)
      | (.error err, s1) => (.error err, s1) }

def revisingStorage : restStorage FakeStore :=
  NewREST extR intR true revisingClient ["mdep"] ["all"]

/-- A backing watch delivering `Added`, `Modified`, `Deleted` for one object and then an
`Error` event, the consumer receiving one event in between. -/
def sampleTimeline : List Tick :=
  [.emit { Typ := .Added, Object := stored "a" "u1" },
   .emit { Typ := .Modified, Object := stored "a" "u1" },
   .recv,
   .emit { Typ := .Deleted, Object := stored "a" "u1" },
   .emit { Typ := .Error, Object := { Object := some [("kind", .str "Status")] } }]

/-- A backing watch delivering 101 events while the consumer receives none. -/
def burstTimeline : List Tick :=
  List.replicate 101 (.emit { Typ := .Added, Object := stored "a" "u1" })

/-- The sample adapter, constructed as cluster-scoped. -/
def clusterStorage : restStorage FakeStore :=
  NewREST extR intR false fakeClient ["mdep"] ["all"]

/-- A request context carrying the namespace `team-a`. -/
def teamA : Context := { ns := some "team-a" }

/-- A freshly opened relay of the sample adapter. -/
def freshRelay : Relay :=
  { w := newWrappedWatcher extR.Assign {}, received := [] }

def addedA : Event := { Typ := .Added, Object := stored "a" "u1" }

/-- The relay after relaying one event, still running. -/
def runningRelay : Relay :=
  { w := { wiStopped := false, mapper := extR.Assign,
           wrapper := { result := [{ Typ := .Added, Object := extR.Assign (stored "a" "u1") }],
                        capacity := DefaultChanSize, Stopped := false, closes := 0 } },
    received := [] }

/-- The relay after relaying one event and the natural closure of the backing channel. -/
def closedRelay : Relay :=
  { w := { wiStopped := false, mapper := extR.Assign,
           wrapper := { result := [{ Typ := .Added, Object := extR.Assign (stored "a" "u1") }],
                        capacity := DefaultChanSize, Stopped := true, closes := 1 } },
    received := [] }

/-- The relay after relaying one event and a call of `Stop()`. -/
def stoppedRelay : Relay :=
  { w := { wiStopped := true, mapper := extR.Assign,
           wrapper := { result := [{ Typ := .Added, Object := extR.Assign (stored "a" "u1") }],
                        capacity := DefaultChanSize, Stopped := true, closes := 1 } },
    received := [] }

/-! ## Lemmas on documents -/

theorem Doc.get_set_self (m : Doc) (k : String) (v : Value) : Doc.get (Doc.set m k v) k = some v := by
  induction m with
  | nil => simp [Doc.set, Doc.get]
  | cons p rest ih =>
    obtain ⟨k', v'⟩ := p
    by_cases h : k' = k
    · simp [Doc.set, Doc.get, h]
    · simp [Doc.set, Doc.get, h, ih]

theorem Doc.get_set_other (m : Doc) (k k' : String) (v : Value) (h : k ≠ k') :
    Doc.get (Doc.set m k v) k' = Doc.get m k' := by
  induction m with
  | nil => simp [Doc.set, Doc.get, h]
  | cons p rest ih =>
    obtain ⟨k₀, v₀⟩ := p
    by_cases h₀ : k₀ = k
    · subst h₀
      simp [Doc.set, Doc.get, h]
    · by_cases h₁ : k₀ = k'
      · subst h₁
        simp [Doc.set, Doc.get, h₀]
      · simp [Doc.set, Doc.get, h₀, h₁, ih]

theorem getNestedString_cons (obj : Option Doc) (f : String) (fs : List String) :
    getNestedString obj (f :: fs) =
      match Doc.get (obj.getD []) f with
      | none => ""
      | some v => match NestedFieldNoCopy v fs with
        | some (.str s) => s
        | _ => "" := by
  unfold getNestedString
  simp only [NestedFieldNoCopy]
  cases Doc.get (obj.getD []) f <;> rfl

theorem Assign_field_apiVersion (r : GroupVersionKindResource) (o : Unstructured) :
    (r.Assign o).field "apiVersion" = some (.str r.GroupVersion.String) := by
  simp only [GroupVersionKindResource.Assign, Unstructured.SetKind, Unstructured.SetAPIVersion,
    Unstructured.setNestedField, Unstructured.field, Option.getD_some]
  rw [Doc.get_set_other _ _ _ _ (by decide), Doc.get_set_self]

theorem Assign_field_kind (r : GroupVersionKindResource) (o : Unstructured) :
    (r.Assign o).field "kind" = some (.str r.Kind) := by
  simp only [GroupVersionKindResource.Assign, Unstructured.SetKind, Unstructured.SetAPIVersion,
    Unstructured.setNestedField, Unstructured.field, Option.getD_some]
  rw [Doc.get_set_self]

theorem Assign_field_other (r : GroupVersionKindResource) (o : Unstructured) (k : String)
    (h₁ : k ≠ "apiVersion") (h₂ : k ≠ "kind") : (r.Assign o).field k = o.field k := by
  simp only [GroupVersionKindResource.Assign, Unstructured.SetKind, Unstructured.SetAPIVersion,
    Unstructured.setNestedField, Unstructured.field, Option.getD_some]
  rw [Doc.get_set_other _ _ _ _ (Ne.symm h₂), Doc.get_set_other _ _ _ _ (Ne.symm h₁)]

theorem getNestedString_of_field (u : Unstructured) (f : String) (fs : List String) :
    getNestedString u.Object (f :: fs) =
      match u.field f with
      | none => ""
      | some v => match NestedFieldNoCopy v fs with
        | some (.str s) => s
        | _ => "" := by
  rw [getNestedString_cons]; rfl

theorem Assign_GetAPIVersion (r : GroupVersionKindResource) (o : Unstructured) :
    (r.Assign o).GetAPIVersion = r.GroupVersion.String := by
  unfold Unstructured.GetAPIVersion
  rw [getNestedString_of_field, Assign_field_apiVersion]
  rfl

theorem Assign_GetKind (r : GroupVersionKindResource) (o : Unstructured) :
    (r.Assign o).GetKind = r.Kind := by
  unfold Unstructured.GetKind
  rw [getNestedString_of_field, Assign_field_kind]
  rfl

/-- Stamping leaves every path under a key other than `apiVersion` and `kind` alone. -/
theorem Assign_getNestedString (r : GroupVersionKindResource) (o : Unstructured) (f : String)
    (fs : List String) (h₁ : f ≠ "apiVersion") (h₂ : f ≠ "kind") :
    getNestedString (r.Assign o).Object (f :: fs) = getNestedString o.Object (f :: fs) := by
  rw [getNestedString_of_field, getNestedString_of_field, Assign_field_other r o f h₁ h₂]

theorem Assign_GetName (r : GroupVersionKindResource) (o : Unstructured) :
    (r.Assign o).GetName = o.GetName :=
  Assign_getNestedString r o "metadata" ["name"] (by decide) (by decide)

theorem Assign_GetUID (r : GroupVersionKindResource) (o : Unstructured) :
    (r.Assign o).GetUID = o.GetUID :=
  Assign_getNestedString r o "metadata" ["uid"] (by decide) (by decide)

theorem GroupVersion.String_eq (gv : GroupVersion) :
    gv.String = if gv.Group = "" then gv.Version else gv.Group ++ "/" ++ gv.Version := by
  unfold GroupVersion.String GroupVersion.Empty
  by_cases hg : gv.Group = ""
  · by_cases hv : gv.Version = ""
    · simp [hg, hv]
    · simp [hg, hv]
  · simp [hg]

theorem Doc.set_set_self (m : Doc) (k : String) (v v' : Value) :
    Doc.set (Doc.set m k v') k v = Doc.set m k v := by
  induction m with
  | nil => simp [Doc.set]
  | cons p rest ih =>
    obtain ⟨k₀, v₀⟩ := p
    by_cases h₀ : k₀ = k
    · simp [Doc.set, h₀]
    · simp [Doc.set, h₀, ih]

theorem Doc.set_set_set (m : Doc) (k k' : String) (v v₀ v' : Value) (h : k ≠ k') :
    Doc.set (Doc.set (Doc.set m k v₀) k' v') k v = Doc.set (Doc.set m k v) k' v' := by
  induction m with
  | nil => simp [Doc.set, h]
  | cons p rest ih =>
    obtain ⟨a, b⟩ := p
    by_cases h₀ : a = k
    · subst h₀
      simp [Doc.set, h]
    · by_cases h₁ : a = k'
      · subst h₁
        simp [Doc.set, h₀, Doc.set_set_self]
      · simp [Doc.set, h₀, h₁, ih]

/-- A later stamp replaces an earlier one entirely. -/
theorem Assign_Assign (r₁ r₂ : GroupVersionKindResource) (o : Unstructured) :
    r₂.Assign (r₁.Assign o) = r₂.Assign o := by
  simp only [GroupVersionKindResource.Assign, Unstructured.SetKind, Unstructured.SetAPIVersion,
    Unstructured.setNestedField, Option.getD_some]
  rw [Doc.set_set_set _ "apiVersion" "kind" _ _ _ (by decide), Doc.set_set_self]

theorem assignRangeCopy_GetName (r : GroupVersionKindResource) (o : Unstructured) :
    (r.assignRangeCopy o).GetName = o.GetName := by
  unfold GroupVersionKindResource.assignRangeCopy
  cases h : o.Object with
  | none => rfl
  | some d => exact Assign_GetName r o

theorem toMetaListOptions_ok (options : Option InternalListOptions) :
    ∃ lo, toMetaListOptions options = .ok lo := by
  cases options with
  | none => exact ⟨_, rfl⟩
  | some o => exact ⟨_, rfl⟩

/-! ## Lemmas on the adapter -/

theorem Get_of_backing (r : restStorage σ) (ctx : Context) (name : String)
    (w w1 : World σ) (u : Unstructured)
    (h : (r.getClient ctx).Get name {} w = (.ok u, w1)) :
    r.Get ctx name none w = (.ok (r.mapper.External.Assign u), w1)
    ∧ r.Get ctx name (some {}) w = (.ok (r.mapper.External.Assign u), w1) := by
  simp [restStorage.Get, h]

theorem Get_error_of_backing (r : restStorage σ) (ctx : Context) (name : String)
    (w w1 : World σ) (err : Err)
    (h : (r.getClient ctx).Get name {} w = (.error err, w1)) :
    r.Get ctx name none w = (.error err, w1)
    ∧ r.Get ctx name (some {}) w = (.error err, w1) := by
  simp [restStorage.Get, h]

theorem Get_calls (c : ResourceInterface σ) (name : String) (options : GetOptions)
    (w : World σ) : (c.Get name options w).2.calls = w.calls ++ [Call.Get c.scope name options] :=
  rfl

/-- With nil options and an accepted object, `Create` panics on `*options` before the backing
client is called. -/
theorem Create_nil_options (r : restStorage σ) (ctx : Context) (obj : Unstructured)
    (createValidation : ValidateObjectFunc) (w : World σ) (h : createValidation obj = none) :
    r.Create ctx obj createValidation none w = (.panicked nilDereference, w) := by
  simp [restStorage.Create, h]

/-- What `Delete` does when the backing `Get` finds the object, the validation accepts it and
the backing `Delete` succeeds. -/
theorem Delete_of_backing (r : restStorage σ) (ctx : Context) (name : String)
    (deleteValidation : ValidateObjectFunc) (options : Option DeleteOptions)
    (w w1 w2 : World σ) (u : Unstructured)
    (hget : (r.getClient ctx).Get name {} w = (.ok u, w1))
    (hval : deleteValidation (r.mapper.External.Assign u) = none)
    (hdel : (r.getClient ctx).Delete u.GetName options w1 = (none, w2)) :
    r.Delete ctx name deleteValidation options w
      = (.ok (r.mapper.External.Assign u, false), w2) := by
  simp [restStorage.Delete, (Get_of_backing r ctx name w w1 u hget).2, hval, Assign_GetName,
    hdel, Assign_Assign]

/-- The create-on-update path of `Update` calls `Create` with nil options, so whenever the
new object passes `createValidation` it panics and the backing `Create` is never reached. -/
theorem Update_create_fallback_panics (r : restStorage σ) (ctx : Context) (name : String)
    (objInfo : UpdatedObjectInfo) (createValidation : ValidateObjectFunc)
    (updateValidation : ValidateObjectUpdateFunc) (options : Option UpdateOptions)
    (w w1 : World σ) (err : Err) (newObj : Unstructured)
    (hget : (r.getClient ctx).Get name {} w = (.error err, w1))
    (hnf : IsNotFound err = true)
    (hnew : objInfo.UpdatedObject ctx r.New = .ok newObj)
    (hval : createValidation newObj = none) :
    r.Update ctx name objInfo createValidation updateValidation true options w
      = (.panicked nilDereference, w1) := by
  simp [restStorage.Update, (Get_error_of_backing r ctx name w w1 err hget).1, hnf, hnew,
    Create_nil_options r ctx newObj createValidation w1 hval]

/-- The method `Update` never consults `updateValidation`. -/
theorem Update_ignores_updateValidation (r : restStorage σ) (ctx : Context) (name : String)
    (objInfo : UpdatedObjectInfo) (createValidation : ValidateObjectFunc)
    (uv uv' : ValidateObjectUpdateFunc) (forceAllowCreate : Bool)
    (options : Option UpdateOptions) (w : World σ) :
    r.Update ctx name objInfo createValidation uv forceAllowCreate options w
      = r.Update ctx name objInfo createValidation uv' forceAllowCreate options w :=
  rfl

/-- The list's own `apiVersion` and `kind` after `AssignList`. -/
theorem AssignList_GetAPIVersion_GetKind (r : GroupVersionKindResource) (ul : UnstructuredList) :
    (r.AssignList ul).GetAPIVersion = r.GroupVersion.String
    ∧ (r.AssignList ul).GetKind = r.Kind ++ "List" := by
  constructor
  · simp only [GroupVersionKindResource.AssignList, UnstructuredList.GetAPIVersion,
      UnstructuredList.SetKind, UnstructuredList.SetAPIVersion, UnstructuredList.setNestedField]
    rw [getNestedString_cons]
    simp only [Option.getD_some]
    rw [Doc.get_set_other _ _ _ _ (by decide), Doc.get_set_self]
    rfl
  · simp only [GroupVersionKindResource.AssignList, UnstructuredList.GetKind,
      UnstructuredList.SetKind, UnstructuredList.SetAPIVersion, UnstructuredList.setNestedField]
    rw [getNestedString_cons]
    simp only [Option.getD_some]
    rw [Doc.get_set_self]
    rfl

/-- The items of a list after `AssignList`: in the same order, and stamped where the item's
map is not nil. -/
theorem AssignList_Items (r : GroupVersionKindResource) (ul : UnstructuredList) :
    (r.AssignList ul).Items = ul.Items.map r.assignRangeCopy :=
  rfl

theorem assignRangeCopy_of_map (r : GroupVersionKindResource) (o : Unstructured) (d : Doc)
    (h : o.Object = some d) :
    (r.assignRangeCopy o).GetAPIVersion = r.GroupVersion.String
    ∧ (r.assignRangeCopy o).GetKind = r.Kind := by
  simp only [GroupVersionKindResource.assignRangeCopy, h]
  exact ⟨Assign_GetAPIVersion r o, Assign_GetKind r o⟩

theorem DeletesSucceed_nil (r : restStorage σ) (ctx : Context)
    (deleteValidation : ValidateObjectFunc) (options : Option DeleteOptions) (w w' : World σ) :
    DeletesSucceed r ctx deleteValidation options [] [] w w' ↔ w' = w := by
  simp only [DeletesSucceed]

theorem DeletesSucceed_cons (r : restStorage σ) (ctx : Context)
    (deleteValidation : ValidateObjectFunc) (options : Option DeleteOptions)
    (x g : Unstructured) (rest gs : List Unstructured) (w w' : World σ) :
    DeletesSucceed r ctx deleteValidation options (x :: rest) (g :: gs) w w' ↔
      ∃ w1 w2, (r.getClient ctx).Get x.GetName {} w = (.ok g, w1)
        ∧ deleteValidation (r.mapper.External.Assign g) = none
        ∧ (r.getClient ctx).Delete g.GetName options w1 = (none, w2)
        ∧ DeletesSucceed r ctx deleteValidation options rest gs w2 w' := by
  simp only [DeletesSucceed]

/-- One object is fetched for each item deleted. -/
theorem DeletesSucceed_length (r : restStorage σ) (ctx : Context)
    (deleteValidation : ValidateObjectFunc) (options : Option DeleteOptions)
    (pre : List Unstructured) :
    ∀ (fetched : List Unstructured) (w w' : World σ),
      DeletesSucceed r ctx deleteValidation options pre fetched w w' →
      fetched.length = pre.length := by
  induction pre with
  | nil =>
    intro fetched w w' h
    cases fetched with
    | nil => rfl
    | cons g gs => simp only [DeletesSucceed] at h
  | cons x xs ih =>
    intro fetched w w' h
    cases fetched with
    | nil => simp only [DeletesSucceed] at h
    | cons g gs =>
      obtain ⟨w1, w2, _, _, _, hrest⟩ := (DeletesSucceed_cons _ _ _ _ _ _ _ _ _ _).1 h
      simp [ih gs w2 w' hrest]

/-- The loop of `DeleteCollection` over a prefix of items whose deletion succeeds: each object
fetched for them is appended to `deleted`, stamped with the external identity, and the loop
goes on with the remaining items. -/
theorem deleteItems_deleted (r : restStorage σ) (ctx : Context)
    (deleteValidation : ValidateObjectFunc) (options : Option DeleteOptions)
    (pre rest : List Unstructured) :
    ∀ (fetched : List Unstructured) (deleted : UnstructuredList) (w w' : World σ),
      DeletesSucceed r ctx deleteValidation options pre fetched w w' →
      deleteItems r ctx deleteValidation options
          (pre.map r.mapper.External.assignRangeCopy ++ rest) deleted w
        = deleteItems r ctx deleteValidation options rest
            { deleted with Items := deleted.Items ++ fetched.map r.mapper.External.Assign }
            w' := by
  induction pre with
  | nil =>
    intro fetched deleted w w' h
    cases fetched with
    | nil =>
      simp only [DeletesSucceed] at h
      subst h
      simp
    | cons g gs => simp only [DeletesSucceed] at h
  | cons x xs ih =>
    intro fetched deleted w w' h
    cases fetched with
    | nil => simp only [DeletesSucceed] at h
    | cons g gs =>
      obtain ⟨w1, w2, hget, hval, hdel, hrest⟩ := (DeletesSucceed_cons _ _ _ _ _ _ _ _ _ _).1 h
      have hD := Delete_of_backing r ctx x.GetName deleteValidation options w w1 w2 g hget
        hval hdel
      have hstep := ih gs { deleted with Items := deleted.Items ++ [r.mapper.External.Assign g] }
        w2 w' hrest
      simp only [List.map_cons, List.cons_append, deleteItems, assignRangeCopy_GetName, hD]
      simpa [List.append_assoc] using hstep

/-- While the channel has room and the relay is not stopped, `run` returns and has published,
after what was published before, the remapped events of the timeline in order. -/
theorem run_of_hasRoom (ext : GroupVersionKindResource) (timeline : List Tick) :
    ∀ s : Relay, s.w.wrapper.Stopped = false → s.w.wrapper.closes = 0 →
      s.w.mapper = ext.Assign →
      hasRoom s.w.wrapper.capacity timeline s.w.wrapper.result.length = true →
      ∃ s', watcher.run timeline s = .done s'
        ∧ s'.published = s.published ++ (emitted timeline).map (remapped ext) := by
  induction timeline with
  | nil =>
    intro s hs hc _ _
    refine ⟨{ s with w := { s.w with wrapper :=
        { s.w.wrapper with closes := s.w.wrapper.closes + 1, Stopped := true } } }, ?_, ?_⟩
    · simp [watcher.run, RaceFreeFakeWatcher.Stop, RaceFreeFakeWatcher.close, hs, hc]
    · simp [Relay.published, emitted]
  | cons t rest ih =>
    intro s hs hc hm hroom
    cases t with
    | emit e =>
      simp only [hasRoom, Bool.and_eq_true, decide_eq_true_eq] at hroom
      obtain ⟨hlt, hroom⟩ := hroom
      by_cases hE : e.Typ = EventType.Error
      · have hrelay : s.w.relay e = .done { s.w with wrapper :=
            { s.w.wrapper with result := s.w.wrapper.result ++ [e] } } := by
          simp [watcher.relay, hE, RaceFreeFakeWatcher.Action, hs, hc, hlt]
          rw [← hE]
        obtain ⟨s', hrun, hpub⟩ := ih { s with w := { s.w with wrapper :=
            { s.w.wrapper with result := s.w.wrapper.result ++ [e] } } } hs hc hm
            (by simpa using hroom)
        refine ⟨s', ?_, ?_⟩
        · simp only [watcher.run, hrelay]
          exact hrun
        · rw [hpub]
          simp [Relay.published, emitted, remapped, hE]
      · have hrelay : s.w.relay e = .done { s.w with wrapper :=
            { s.w.wrapper with result := s.w.wrapper.result
                ++ [{ Typ := e.Typ, Object := ext.Assign e.Object }] } } := by
          simp [watcher.relay, hE, RaceFreeFakeWatcher.Action, hs, hc, hlt, hm]
        obtain ⟨s', hrun, hpub⟩ := ih { s with w := { s.w with wrapper :=
            { s.w.wrapper with result := s.w.wrapper.result
                ++ [{ Typ := e.Typ, Object := ext.Assign e.Object }] } } } hs hc hm
            (by simpa using hroom)
        refine ⟨s', ?_, ?_⟩
        · simp only [watcher.run, hrelay]
          exact hrun
        · rw [hpub]
          simp [Relay.published, emitted, remapped, hE]
    | recv =>
      simp only [hasRoom] at hroom
      cases hres : s.w.wrapper.result with
      | nil =>
        have hrecv : s.receive = s := by simp [Relay.receive, hres]
        obtain ⟨s', hrun, hpub⟩ := ih s hs hc hm (by simpa [hres] using hroom)
        refine ⟨s', ?_, ?_⟩
        · simp only [watcher.run, hrecv]
          exact hrun
        · rw [hpub]
          simp [emitted]
      | cons e₀ es =>
        have hrecv : s.receive = { w := { s.w with wrapper := { s.w.wrapper with result := es } },
                                   received := s.received ++ [e₀] } := by
          simp [Relay.receive, hres]
        obtain ⟨s', hrun, hpub⟩ := ih { w := { s.w with wrapper :=
            { s.w.wrapper with result := es } }, received := s.received ++ [e₀] } hs hc hm
            (by simpa [hres] using hroom)
        refine ⟨s', ?_, ?_⟩
        · simp only [watcher.run, hrecv]
          exact hrun
        · rw [hpub]
          simp [Relay.published, emitted, hres]

/-- The method `DeleteCollection` on a backing list `pre ++ x :: post` when deleting `pre`
succeeds, `fetched` being the objects fetched for `pre`, and the `Delete` of `x` fails. -/
theorem DeleteCollection_of_split (r : restStorage σ) (ctx : Context)
    (deleteValidation : ValidateObjectFunc) (options : Option DeleteOptions)
    (listOptions : Option InternalListOptions) (lo : ListOptions) (w w1 wk wend : World σ)
    (ul : UnstructuredList) (pre post fetched : List Unstructured) (x : Unstructured) (e : Err)
    (hlo : toMetaListOptions listOptions = .ok lo)
    (hlist : (r.getClient ctx).List lo w = (.ok ul, w1))
    (hsplit : ul.Items = pre ++ x :: post)
    (hpre : DeletesSucceed r ctx deleteValidation options pre fetched w1 wk)
    (hfail : r.Delete ctx x.GetName deleteValidation options wk = (.error e, wend)) :
    r.DeleteCollection ctx deleteValidation options listOptions w
      = ((some { Object := r.NewList.Object, Items := fetched.map r.mapper.External.Assign },
          some e), wend) := by
  have hitems : (r.mapper.External.AssignList ul).Items
      = pre.map r.mapper.External.assignRangeCopy
        ++ (r.mapper.External.assignRangeCopy x
            :: post.map r.mapper.External.assignRangeCopy) := by
    rw [AssignList_Items, hsplit, List.map_append, List.map_cons]
  have hL : r.List ctx listOptions w = (.ok (r.mapper.External.AssignList ul), w1) := by
    simp [restStorage.List, hlo, hlist]
  have hnew : r.NewList.Items = [] := rfl
  simp only [restStorage.DeleteCollection, hL, hitems]
  rw [deleteItems_deleted r ctx deleteValidation options _ _ fetched _ w1 wk hpre]
  simp [deleteItems, assignRangeCopy_GetName, hfail, hnew]

/-- Documents that agree up to their stamp are equal once stamped. -/
theorem map_Assign_of_same (ext : GroupVersionKindResource) (l₁ l₂ : List Unstructured)
    (h : List.Forall₂ (fun g x => ext.Assign g = ext.Assign x) l₁ l₂) :
    l₁.map ext.Assign = l₂.map ext.Assign := by
  induction h with
  | nil => rfl
  | cons hhead _ ih => simp [hhead, ih]

/-- The list `NewList` returns carries the external identity, its kind suffixed with `List`. -/
theorem NewList_identity (r : restStorage σ) :
    getNestedString r.NewList.Object ["apiVersion"] = r.mapper.External.GroupVersion.String
    ∧ getNestedString r.NewList.Object ["kind"] = r.mapper.External.Kind ++ "List" :=
  AssignList_GetAPIVersion_GetKind r.mapper.External { Object := none, Items := [] }

/-- A burst of `n` events that does not fit into the channel makes `run` panic, whatever
follows the burst. -/
theorem run_burst_panics (e : Event) :
    ∀ (n : Nat) (after : List Tick) (s : Relay), s.w.wrapper.Stopped = false → s.w.wrapper.closes = 0 →
      s.w.wrapper.result.length ≤ s.w.wrapper.capacity →
      s.w.wrapper.capacity < s.w.wrapper.result.length + n →
      watcher.run (List.replicate n (.emit e) ++ after) s = .panicked "channel full" := by
  intro n after
  induction n with
  | zero => intro s _ _ hle hlt; omega
  | succ n ih =>
    intro s hs hc hle hlt
    by_cases hfull : s.w.wrapper.result.length < s.w.wrapper.capacity
    · by_cases hE : e.Typ = EventType.Error
      · have hrelay : s.w.relay e = .done { s.w with wrapper :=
            { s.w.wrapper with result := s.w.wrapper.result ++ [e] } } := by
          simp [watcher.relay, hE, RaceFreeFakeWatcher.Action, hs, hc, hfull]
          rw [← hE]
        simp only [List.replicate_succ, List.cons_append, watcher.run, hrelay]
        apply ih
        · exact hs
        · exact hc
        · simp; omega
        · simp; omega
      · have hrelay : s.w.relay e = .done { s.w with wrapper :=
            { s.w.wrapper with result := s.w.wrapper.result
                ++ [{ Typ := e.Typ, Object := s.w.mapper e.Object }] } } := by
          simp [watcher.relay, hE, RaceFreeFakeWatcher.Action, hs, hc, hfull]
        simp only [List.replicate_succ, List.cons_append, watcher.run, hrelay]
        apply ih
        · exact hs
        · exact hc
        · simp; omega
        · simp; omega
    · have hrelay : s.w.relay e = .panicked "channel full" := by
        by_cases hE : e.Typ = EventType.Error
        · simp [watcher.relay, hE, RaceFreeFakeWatcher.Action, hs, hc, hfull]
        · simp [watcher.relay, hE, RaceFreeFakeWatcher.Action, hs, hc, hfull]
      simp only [List.replicate_succ, List.cons_append, watcher.run, hrelay]

/-! ## Lemmas on the scope of backing calls -/

theorem CallsScoped_refl (ns : Option String) (w : World σ) : CallsScoped ns w w :=
  ⟨[], by simp, by simp⟩

theorem CallsScoped_trans (ns : Option String) (w w1 w2 : World σ)
    (h₁ : CallsScoped ns w w1) (h₂ : CallsScoped ns w1 w2) : CallsScoped ns w w2 := by
  obtain ⟨n₁, e₁, s₁⟩ := h₁
  obtain ⟨n₂, e₂, s₂⟩ := h₂
  refine ⟨n₁ ++ n₂, by rw [e₂, e₁, List.append_assoc], ?_⟩
  intro c hc
  rcases List.mem_append.mp hc with h | h
  · exact s₁ c h
  · exact s₂ c h

theorem getClient_scope (r : restStorage σ) (ctx : Context) :
    (r.getClient ctx).scope = ctx.ns := by
  unfold restStorage.getClient
  cases ctx.ns <;> rfl

theorem getClient_client (r : restStorage σ) (ctx : Context) :
    (r.getClient ctx).client = r.client := by
  unfold restStorage.getClient
  cases ctx.ns <;> rfl

theorem backing_Get_scoped (c : ResourceInterface σ) (name : String) (o : GetOptions)
    (w w1 : World σ) (res : Except Err Unstructured) (h : c.Get name o w = (res, w1)) :
    CallsScoped c.scope w w1 := by
  have h2 : w1 = (c.Get name o w).2 := by rw [h]
  rw [h2]
  exact ⟨[Call.Get c.scope name o], rfl, by simp [Call.scope]⟩

theorem backing_List_scoped (c : ResourceInterface σ) (o : ListOptions)
    (w w1 : World σ) (res : Except Err UnstructuredList) (h : c.List o w = (res, w1)) :
    CallsScoped c.scope w w1 := by
  have h2 : w1 = (c.List o w).2 := by rw [h]
  rw [h2]
  exact ⟨[Call.List c.scope o], rfl, by simp [Call.scope]⟩

theorem backing_Watch_scoped (c : ResourceInterface σ) (o : ListOptions)
    (w w1 : World σ) (res : Except Err WatchHandle) (h : c.Watch o w = (res, w1)) :
    CallsScoped c.scope w w1 := by
  have h2 : w1 = (c.Watch o w).2 := by rw [h]
  rw [h2]
  exact ⟨[Call.Watch c.scope o], rfl, by simp [Call.scope]⟩

theorem backing_Create_scoped (c : ResourceInterface σ) (obj : Unstructured)
    (o : CreateOptions) (w w1 : World σ) (res : Except Err Unstructured)
    (h : c.Create obj o w = (res, w1)) : CallsScoped c.scope w w1 := by
  have h2 : w1 = (c.Create obj o w).2 := by rw [h]
  rw [h2]
  exact ⟨[Call.Create c.scope obj o], rfl, by simp [Call.scope]⟩

theorem backing_Update_scoped (c : ResourceInterface σ) (obj : Unstructured)
    (o : UpdateOptions) (w w1 : World σ) (res : Except Err Unstructured)
    (h : c.Update obj o w = (res, w1)) : CallsScoped c.scope w w1 := by
  have h2 : w1 = (c.Update obj o w).2 := by rw [h]
  rw [h2]
  exact ⟨[Call.Update c.scope obj o], rfl, by simp [Call.scope]⟩

theorem backing_Delete_scoped (c : ResourceInterface σ) (name : String)
    (o : Option DeleteOptions) (w w1 : World σ) (res : Option Err)
    (h : c.Delete name o w = (res, w1)) : CallsScoped c.scope w w1 := by
  have h2 : w1 = (c.Delete name o w).2 := by rw [h]
  rw [h2]
  exact ⟨[Call.Delete c.scope name o], rfl, by simp [Call.scope]⟩

theorem Get_scoped (r : restStorage σ) (ctx : Context) (name : String)
    (options : Option GetOptions) (w : World σ) :
    CallsScoped ctx.ns w (r.Get ctx name options w).2 := by
  rw [← getClient_scope r ctx]
  cases options with
  | none =>
    simp only [restStorage.Get]
    split
    · rename_i heq
      exact backing_Get_scoped _ _ _ _ _ _ heq
    · rename_i heq
      exact backing_Get_scoped _ _ _ _ _ _ heq
  | some o =>
    simp only [restStorage.Get]
    split
    · rename_i heq
      exact backing_Get_scoped _ _ _ _ _ _ heq
    · rename_i heq
      exact backing_Get_scoped _ _ _ _ _ _ heq

theorem List_scoped (r : restStorage σ) (ctx : Context)
    (options : Option InternalListOptions) (w : World σ) :
    CallsScoped ctx.ns w (r.List ctx options w).2 := by
  rw [← getClient_scope r ctx]
  unfold restStorage.List
  split
  · exact CallsScoped_refl _ _
  · split
    · rename_i heq
      exact backing_List_scoped _ _ _ _ _ heq
    · rename_i heq
      exact backing_List_scoped _ _ _ _ _ heq

theorem Watch_scoped (r : restStorage σ) (ctx : Context)
    (options : Option InternalListOptions) (w : World σ) :
    CallsScoped ctx.ns w (r.Watch ctx options w).2 := by
  rw [← getClient_scope r ctx]
  unfold restStorage.Watch
  split
  · exact CallsScoped_refl _ _
  · split
    · rename_i heq
      exact backing_Watch_scoped _ _ _ _ _ heq
    · rename_i heq
      exact backing_Watch_scoped _ _ _ _ _ heq

theorem Create_scoped (r : restStorage σ) (ctx : Context) (obj : Unstructured)
    (createValidation : ValidateObjectFunc) (options : Option CreateOptions) (w : World σ) :
    CallsScoped ctx.ns w (r.Create ctx obj createValidation options w).2 := by
  rw [← getClient_scope r ctx]
  unfold restStorage.Create
  split
  · exact CallsScoped_refl _ _
  · dsimp only
    split
    · exact CallsScoped_refl _ _
    · split
      · rename_i heq
        exact backing_Create_scoped _ _ _ _ _ _ heq
      · rename_i heq
        exact backing_Create_scoped _ _ _ _ _ _ heq

theorem Delete_scoped (r : restStorage σ) (ctx : Context) (name : String)
    (deleteValidation : ValidateObjectFunc) (options : Option DeleteOptions) (w : World σ) :
    CallsScoped ctx.ns w (r.Delete ctx name deleteValidation options w).2 := by
  unfold restStorage.Delete
  split
  · rename_i heq
    have h := Get_scoped r ctx name (some {}) w
    rw [heq] at h
    exact h
  · rename_i heq
    have h := Get_scoped r ctx name (some {}) w
    rw [heq] at h
    split
    · exact h
    · dsimp only
      split
      · rename_i heq2
        exact CallsScoped_trans _ _ _ _ h
          (getClient_scope r ctx ▸ backing_Delete_scoped _ _ _ _ _ _ heq2)
      · rename_i heq2
        exact CallsScoped_trans _ _ _ _ h
          (getClient_scope r ctx ▸ backing_Delete_scoped _ _ _ _ _ _ heq2)

theorem Update_scoped (r : restStorage σ) (ctx : Context) (name : String)
    (objInfo : UpdatedObjectInfo) (createValidation : ValidateObjectFunc)
    (updateValidation : ValidateObjectUpdateFunc) (forceAllowCreate : Bool)
    (options : Option UpdateOptions) (w : World σ) :
    CallsScoped ctx.ns w
      (r.Update ctx name objInfo createValidation updateValidation forceAllowCreate options
        w).2 := by
  unfold restStorage.Update
  split
  · rename_i err w1 heq
    have h := Get_scoped r ctx name none w
    rw [heq] at h
    split
    · split
      · exact h
      · rename_i newObj _
        have hc := Create_scoped r ctx newObj createValidation none w1
        split
        · rename_i heq2
          rw [heq2] at hc
          exact CallsScoped_trans _ _ _ _ h hc
        · rename_i heq2
          rw [heq2] at hc
          exact CallsScoped_trans _ _ _ _ h hc
        · rename_i heq2
          rw [heq2] at hc
          exact CallsScoped_trans _ _ _ _ h hc
    · exact h
  · rename_i heq
    have h := Get_scoped r ctx name none w
    rw [heq] at h
    split
    · exact h
    · dsimp only
      split
      · exact h
      · split
        · exact h
        · split
          · rename_i heq2
            exact CallsScoped_trans _ _ _ _ h
              (getClient_scope r ctx ▸ backing_Update_scoped _ _ _ _ _ _ heq2)
          · rename_i heq2
            exact CallsScoped_trans _ _ _ _ h
              (getClient_scope r ctx ▸ backing_Update_scoped _ _ _ _ _ _ heq2)

theorem deleteItems_scoped (r : restStorage σ) (ctx : Context)
    (deleteValidation : ValidateObjectFunc) (options : Option DeleteOptions)
    (items : List Unstructured) :
    ∀ (deleted : UnstructuredList) (w : World σ),
      CallsScoped ctx.ns w (deleteItems r ctx deleteValidation options items deleted w).2 := by
  induction items with
  | nil =>
    intro deleted w
    exact CallsScoped_refl _ _
  | cons i rest ih =>
    intro deleted w
    have h := Delete_scoped r ctx i.GetName deleteValidation options w
    simp only [deleteItems]
    split
    · rename_i heq
      rw [heq] at h
      exact h
    · rename_i heq
      rw [heq] at h
      exact CallsScoped_trans _ _ _ _ h (ih _ _)

theorem DeleteCollection_scoped (r : restStorage σ) (ctx : Context)
    (deleteValidation : ValidateObjectFunc) (options : Option DeleteOptions)
    (listOptions : Option InternalListOptions) (w : World σ) :
    CallsScoped ctx.ns w
      (r.DeleteCollection ctx deleteValidation options listOptions w).2 := by
  have h := List_scoped r ctx listOptions w
  unfold restStorage.DeleteCollection
  split
  · rename_i heq
    rw [heq] at h
    exact h
  · rename_i l w1 heq
    rw [heq] at h
    have h2 := deleteItems_scoped r ctx deleteValidation options l.Items r.NewList w1
    exact CallsScoped_trans _ _ _ _ h h2

/-- The loop of `DeleteCollection` does not depend on the `namespaceScoped` flag. -/
theorem deleteItems_flag (r : restStorage σ) (b : Bool) (ctx : Context)
    (deleteValidation : ValidateObjectFunc) (options : Option DeleteOptions)
    (items : List Unstructured) :
    ∀ (deleted : UnstructuredList) (w : World σ),
      deleteItems ({ r with namespaceScoped := b } : restStorage σ) ctx deleteValidation
          options items deleted w
        = deleteItems r ctx deleteValidation options items deleted w := by
  induction items with
  | nil => intro deleted w; rfl
  | cons i rest ih =>
    intro deleted w
    simp only [deleteItems]
    have hD : ({ r with namespaceScoped := b } : restStorage σ).Delete ctx i.GetName
        deleteValidation options w = r.Delete ctx i.GetName deleteValidation options w := rfl
    rw [hD]
    split
    · rfl
    · exact ih _ _

/-! ## Lemmas on the relay's state machine -/

theorem NewRaceFreeFake_consistent : NewRaceFreeFake.consistent := rfl

/-- On a consistent sink `Stop` does not panic: it leaves the sink stopped, its channel closed
once and its buffer as it was, and it changes nothing when the sink was stopped already. -/
theorem Stop_of_consistent (f : RaceFreeFakeWatcher) (h : f.consistent) :
    ∃ f1, f.Stop = .done f1 ∧ f1.Stopped = true ∧ f1.closes = 1 ∧ f1.result = f.result
      ∧ f1.capacity = f.capacity ∧ (f.Stopped = true → f1 = f) := by
  unfold RaceFreeFakeWatcher.consistent at h
  cases hS : f.Stopped with
  | false =>
    rw [hS] at h
    simp only [Bool.false_eq_true, if_false] at h
    refine ⟨{ f with closes := f.closes + 1, Stopped := true }, ?_, rfl, ?_, rfl, rfl, ?_⟩
    · simp [RaceFreeFakeWatcher.Stop, RaceFreeFakeWatcher.close, hS, h]
    · simp [h]
    · intro hc; cases hc
  | true =>
    rw [hS] at h
    simp only [if_true] at h
    exact ⟨f, by simp [RaceFreeFakeWatcher.Stop, hS], hS, h, rfl, rfl, fun _ => rfl⟩

theorem Stop_consistent (f f1 : RaceFreeFakeWatcher) (h : f.consistent)
    (hstop : f.Stop = .done f1) : f1.consistent := by
  obtain ⟨f2, h2, hS, hc, _⟩ := Stop_of_consistent f h
  rw [h2] at hstop
  cases hstop
  simp [RaceFreeFakeWatcher.consistent, hS, hc]

theorem Action_consistent (f f1 : RaceFreeFakeWatcher) (action : EventType)
    (obj : Unstructured) (h : f.consistent) (hact : f.Action action obj = .done f1) :
    f1.consistent := by
  unfold RaceFreeFakeWatcher.Action at hact
  split at hact
  · split at hact
    · cases hact
    · split at hact
      · cases hact
        exact h
      · cases hact
  · cases hact
    exact h

theorem relay_consistent (w w1 : watcher) (e : Event) (h : w.wrapper.consistent)
    (hrelay : w.relay e = .done w1) : w1.wrapper.consistent := by
  unfold watcher.relay at hrelay
  split at hrelay
  · cases hact : w.wrapper.Action e.Typ (w.mapper e.Object) with
    | done f =>
      rw [hact] at hrelay
      cases hrelay
      exact Action_consistent _ _ _ _ h hact
    | panicked p =>
      rw [hact] at hrelay
      cases hrelay
  · cases hact : w.wrapper.Action e.Typ e.Object with
    | done f =>
      rw [hact] at hrelay
      cases hrelay
      exact Action_consistent _ _ _ _ h hact
    | panicked p =>
      rw [hact] at hrelay
      cases hrelay

theorem receive_consistent (s : Relay) (h : s.w.wrapper.consistent) :
    s.receive.w.wrapper.consistent := by
  unfold Relay.receive
  split
  · exact h
  · exact h

theorem watcher_Stop_consistent (w w1 : watcher) (h : w.wrapper.consistent)
    (hstop : w.Stop = .done w1) : w1.wrapper.consistent := by
  unfold watcher.Stop at hstop
  cases hS : w.wrapper.Stop with
  | done f =>
    simp only [hS] at hstop
    cases hstop
    exact Stop_consistent _ _ h hS
  | panicked p =>
    simp only [hS] at hstop
    cases hstop

theorem step_consistent (s s1 : Relay) (op : RelayOp) (h : s.w.wrapper.consistent)
    (hstep : s.step op = .done s1) : s1.w.wrapper.consistent := by
  cases op with
  | emit e =>
    simp only [Relay.step] at hstep
    cases hr : s.w.relay e with
    | done w1 =>
      rw [hr] at hstep
      cases hstep
      exact relay_consistent _ _ _ h hr
    | panicked p =>
      rw [hr] at hstep
      cases hstep
  | recv =>
    simp only [Relay.step] at hstep
    cases hstep
    exact receive_consistent s h
  | closure =>
    simp only [Relay.step] at hstep
    cases hS : s.w.wrapper.Stop with
    | done f =>
      rw [hS] at hstep
      cases hstep
      exact Stop_consistent _ _ h hS
    | panicked p =>
      rw [hS] at hstep
      cases hstep
  | stop =>
    simp only [Relay.step] at hstep
    cases hS : s.w.Stop with
    | done w1 =>
      rw [hS] at hstep
      cases hstep
      exact watcher_Stop_consistent _ _ h hS
    | panicked p =>
      rw [hS] at hstep
      cases hstep

/-- Every state a relay reaches has a consistent sink. -/
theorem exec_consistent (ops : List RelayOp) :
    ∀ s s1 : Relay, s.w.wrapper.consistent → Relay.exec ops s = .done s1 →
      s1.w.wrapper.consistent := by
  induction ops with
  | nil =>
    intro s s1 h hexec
    simp only [Relay.exec] at hexec
    cases hexec
    exact h
  | cons op rest ih =>
    intro s s1 h hexec
    simp only [Relay.exec] at hexec
    cases hstep : s.step op with
    | done s2 =>
      rw [hstep] at hexec
      exact ih s2 s1 (step_consistent s s2 op h hstep) hexec
    | panicked p =>
      rw [hstep] at hexec
      cases hexec

/-- The method `run` along a timeline is the relay's state machine on the timeline's
happenings followed by the closure of the backing channel. -/
theorem run_eq_exec (timeline : List Tick) :
    ∀ s : Relay, watcher.run timeline s = Relay.exec (timeline.map Tick.toOp ++ [.closure]) s := by
  induction timeline with
  | nil =>
    intro s
    simp only [watcher.run, List.map_nil, List.nil_append, Relay.exec, Relay.step]
    cases s.w.wrapper.Stop <;> rfl
  | cons t rest ih =>
    intro s
    cases t with
    | emit e =>
      simp only [watcher.run, List.map_cons, List.cons_append, Relay.exec, Relay.step,
        Tick.toOp]
      cases s.w.relay e with
      | done w1 => exact ih _
      | panicked p => rfl
    | recv =>
      simp only [watcher.run, List.map_cons, List.cons_append, Relay.exec, Relay.step,
        Tick.toOp]
      exact ih _

/-- On a relay with a consistent sink `Stop()` does not panic and leaves the relay stopped,
with its output closed once; a further `Stop()` returns the same relay. -/
theorem watcher_Stop_of_consistent (w : watcher) (h : w.wrapper.consistent) :
    ∃ w1, w.Stop = .done w1 ∧ w1.state = .Stopped ∧ w1.wrapper.closes = 1
      ∧ w1.wrapper.result = w.wrapper.result ∧ w1.Stop = .done w1
      ∧ (w.state = .Stopped → w1.wrapper = w.wrapper) := by
  obtain ⟨f1, hstop, hS, hc, hres, _, hsame⟩ := Stop_of_consistent w.wrapper h
  have hf1 : f1.consistent := Stop_consistent _ _ h hstop
  obtain ⟨f2, hstop2, _, _, _, _, hsame2⟩ := Stop_of_consistent f1 hf1
  have h21 : f2 = f1 := hsame2 hS
  subst h21
  refine ⟨{ w with wiStopped := true, wrapper := f2 }, ?_, ?_, hc, hres, ?_, ?_⟩
  · simp [watcher.Stop, hstop]
  · simp [watcher.state, hS]
  · simp [watcher.Stop, hstop2]
  · intro hst
    have hws : w.wrapper.Stopped = true := by
      unfold watcher.state at hst
      split at hst
      · assumption
      · cases hst
    exact hsame hws

/-- For a relay opened by `Watch` and every timeline along which the relay's channel has room
whenever the backing watch delivers an event, `run` returns, and the sequence it has published
has the same length and the same event kinds in the same order as the sequence the backing
watch emitted: the object of every non-`Error` event is the emitted object stamped with the
external identity, the object of every `Error` event is the emitted one. -/
theorem relay_order_of_hasRoom (r : restStorage σ) (ctx : Context)
    (options : Option InternalListOptions) (w w1 : World σ) (wt : watcher)
    (timeline : List Tick)
    (hwatch : r.Watch ctx options w = (.ok wt, w1))
    (hroom : hasRoom DefaultChanSize timeline 0 = true) :
    ∃ s, watcher.run timeline { w := wt, received := [] } = .done s
      ∧ s.published = (emitted timeline).map (remapped r.mapper.External)
      ∧ s.published.length = (emitted timeline).length
      ∧ s.published.map (fun p => p.Typ) = (emitted timeline).map (fun e => e.Typ)
      ∧ List.Forall₂ (fun e p =>
          (e.Typ ≠ EventType.Error →
            p.Object = r.mapper.External.Assign e.Object
            ∧ p.Object.GetAPIVersion = r.mapper.External.GroupVersion.String
            ∧ p.Object.GetKind = r.mapper.External.Kind)
          ∧ (e.Typ = EventType.Error → p = e))
          (emitted timeline) s.published := by
  have hwt : wt = newWrappedWatcher r.mapper.External.Assign {} := by
    obtain ⟨lo, hlo⟩ := toMetaListOptions_ok options
    simp only [restStorage.Watch, hlo] at hwatch
    split at hwatch
    · cases hwatch
    · have := congrArg (fun p => p.1) hwatch
      simp only [Except.ok.injEq] at this
      rw [← this]
      rfl
  subst hwt
  obtain ⟨s, hrun, hpub⟩ := run_of_hasRoom r.mapper.External timeline
    { w := newWrappedWatcher r.mapper.External.Assign {}, received := [] } rfl rfl rfl hroom
  have hpub' : s.published = (emitted timeline).map (remapped r.mapper.External) := by
    rw [hpub]; rfl
  refine ⟨s, hrun, hpub', ?_, ?_, ?_⟩
  · rw [hpub', List.length_map]
  · rw [hpub', List.map_map]
    apply List.map_congr_left
    intro e _
    simp only [Function.comp, remapped]
    split <;> rfl
  · rw [hpub']
    rw [List.forall₂_map_right_iff]
    apply List.forall₂_same.mpr
    intro e _
    constructor
    · intro hE
      have hr : remapped r.mapper.External e
          = { e with Object := r.mapper.External.Assign e.Object } := by
        simp [remapped, hE]
      rw [hr]
      exact ⟨rfl, Assign_GetAPIVersion _ _, Assign_GetKind _ _⟩
    · intro hE
      simp [remapped, hE]

theorem relay_order_sample :
    ∃ s, watcher.run sampleTimeline
          { w := newWrappedWatcher extR.Assign {}, received := [] } = .done s
      ∧ s.published = (emitted sampleTimeline).map (remapped sampleStorage.mapper.External)
      ∧ s.published.length = (emitted sampleTimeline).length
      ∧ s.published.map (fun p => p.Typ) = (emitted sampleTimeline).map (fun e => e.Typ)
      ∧ List.Forall₂ (fun e p =>
          (e.Typ ≠ EventType.Error →
            p.Object = sampleStorage.mapper.External.Assign e.Object
            ∧ p.Object.GetAPIVersion = sampleStorage.mapper.External.GroupVersion.String
            ∧ p.Object.GetKind = sampleStorage.mapper.External.Kind)
          ∧ (e.Typ = EventType.Error → p = e))
          (emitted sampleTimeline) s.published :=
  relay_order_of_hasRoom sampleStorage {} none (world [] []) _ _ sampleTimeline rfl (by decide)

/-! ## Claims -/

/-- C1. Stamping an object with the internal identity and then with the external identity
gives an object whose `apiVersion` and `kind` are the external identity's (`apiVersion` is
`group/version`, or the version alone when the group is empty), and every other top-level
field of the object (`metadata`, `spec`, `status`, any other key) is the original's. -/
theorem C1_identity_round_trip (m : mapper) (obj : Unstructured) :
    (m.External.Assign (m.Internal.Assign obj)).GetAPIVersion =
        (if m.External.GroupVersion.Group = "" then m.External.GroupVersion.Version
         else m.External.GroupVersion.Group ++ "/" ++ m.External.GroupVersion.Version)
    ∧ (m.External.Assign (m.Internal.Assign obj)).GetKind = m.External.Kind
    ∧ ∀ k : String, k ≠ "apiVersion" → k ≠ "kind" →
        (m.External.Assign (m.Internal.Assign obj)).field k = obj.field k := by
  refine ⟨?_, ?_, ?_⟩
  · rw [Assign_GetAPIVersion, GroupVersion.String_eq]
  · rw [Assign_GetKind]
  · intro k h₁ h₂
    rw [Assign_field_other _ _ k h₁ h₂, Assign_field_other _ _ k h₁ h₂]

/-- C2. When `createValidation` rejects the object, `Create` returns exactly the callback's
error and no object, and the backing client receives no call at all: in particular its
`Create` operation is invoked zero times. -/
theorem C2_create_validation_short_circuit (r : restStorage σ) (ctx : Context)
    (obj : Unstructured) (createValidation : ValidateObjectFunc) (options : Option CreateOptions)
    (w : World σ) (err : Err) (h : createValidation obj = some err) :
    (r.Create ctx obj createValidation options w).1 = .done (.error err)
    ∧ (r.Create ctx obj createValidation options w).2.calls = w.calls
    ∧ (r.Create ctx obj createValidation options w).2.calls.countP Call.isCreate
        = w.calls.countP Call.isCreate := by
  simp [restStorage.Create, h]

theorem C2_create_validation_short_circuit_witness :
    rejectAll (stored "a" "u1") = some (.plain "denied")
    ∧ (sampleStorage.Create {} (stored "a" "u1") rejectAll (some {}) (world [] [])).1
        = .done (.error (.plain "denied"))
    ∧ (sampleStorage.Create {} (stored "a" "u1") rejectAll (some {}) (world [] [])).2.calls
        = (world [] []).calls
    ∧ (sampleStorage.Create {} (stored "a" "u1") rejectAll (some {})
          (world [] [])).2.calls.countP Call.isCreate
        = (world [] []).calls.countP Call.isCreate :=
  ⟨rfl, C2_create_validation_short_circuit sampleStorage {} (stored "a" "u1") rejectAll (some {})
    (world [] []) (.plain "denied") rfl⟩

/-- C3, counterexample. The stored object has UID `u1` and the precondition UID is
`u2 ≠ u1`. (1) When the update's new object carries UID `u2`, `Update` does not fail and the
backing `Update` is invoked once: the precondition is compared with the new object. (2) When
the update transform fails, `Update` fails with the transform's error, not with a precondition
error. (3) When the new object keeps UID `u1`, `Update` fails with the plain error
`failed uid precondition`, which is not a conflict status error. -/
theorem C3_counterexample :
    (stored "a" "u1").GetUID = "u1"
    ∧ changesUID.Preconditions = some { UID := some "u2" }
    ∧ failingUpdate.Preconditions = some { UID := some "u2" }
    ∧ expectsU2.Preconditions = some { UID := some "u2" }
    ∧ "u2" ≠ "u1"
    ∧ (sampleStorage.Update {} "a" changesUID acceptAll acceptAllUpdates false (some {})
          (world [stored "a" "u1"] [])).1
        = .done (.ok (extR.Assign (stored "a" "u2"), false))
    ∧ (sampleStorage.Update {} "a" changesUID acceptAll acceptAllUpdates false (some {})
          (world [stored "a" "u1"] [])).2.calls.countP Call.isUpdate = 1
    ∧ (¬ ∃ e, (sampleStorage.Update {} "a" changesUID acceptAll acceptAllUpdates false (some {})
          (world [stored "a" "u1"] [])).1 = .done (.error e))
    ∧ (sampleStorage.Update {} "a" failingUpdate acceptAll acceptAllUpdates false (some {})
          (world [stored "a" "u1"] [])).1
        = .done (.error (.plain "cannot compute the update"))
    ∧ (sampleStorage.Update {} "a" expectsU2 acceptAll acceptAllUpdates false (some {})
          (world [stored "a" "u1"] [])).1
        = .done (.error (.plain "failed uid precondition"))
    ∧ IsConflict (.plain "failed uid precondition") = false
    ∧ (¬ ∃ e, (sampleStorage.Update {} "a" expectsU2 acceptAll acceptAllUpdates false (some {})
          (world [stored "a" "u1"] [])).1 = .done (.error e) ∧ IsConflict e = true) := by
  refine ⟨rfl, rfl, rfl, rfl, by decide, rfl, rfl, ?_, rfl, rfl, rfl, ?_⟩
  · rintro ⟨e, he⟩
    have h : (sampleStorage.Update {} "a" changesUID acceptAll acceptAllUpdates false (some {})
        (world [stored "a" "u1"] [])).1 = .done (.ok (extR.Assign (stored "a" "u2"), false)) :=
      rfl
    rw [h] at he
    cases he
  · rintro ⟨e, he, hc⟩
    have h : (sampleStorage.Update {} "a" expectsU2 acceptAll acceptAllUpdates false (some {})
        (world [stored "a" "u1"] [])).1 = .done (.error (.plain "failed uid precondition")) :=
      rfl
    rw [h] at he
    cases he
    cases hc

/-- C3, as amended. When the backing `Get` finds the stored object, the update transform
succeeds with an updated object whose UID is `U1`, and the precondition UID `U2` differs from
`U1`, `Update` fails with the plain error `failed uid precondition`, which is not a conflict
status error, and the backing client's `Update` operation is not invoked. -/
theorem C3_update_uid_precondition (r : restStorage σ) (ctx : Context) (name : String)
    (objInfo : UpdatedObjectInfo) (createValidation : ValidateObjectFunc)
    (updateValidation : ValidateObjectUpdateFunc) (forceAllowCreate : Bool)
    (options : Option UpdateOptions) (w w1 : World σ) (current updated : Unstructured)
    (pc : Preconditions) (U1 U2 : String)
    (hget : (r.getClient ctx).Get name {} w = (.ok current, w1))
    (hupd : objInfo.UpdatedObject ctx (r.mapper.External.Assign current) = .ok updated)
    (hU1 : updated.GetUID = U1)
    (hpc : objInfo.Preconditions = some pc) (hU2 : pc.UID = some U2)
    (hne : U2 ≠ U1) :
    (r.Update ctx name objInfo createValidation updateValidation forceAllowCreate options w).1
        = .done (.error (.plain "failed uid precondition"))
    ∧ IsConflict (.plain "failed uid precondition") = false
    ∧ (r.Update ctx name objInfo createValidation updateValidation forceAllowCreate options
          w).2.calls.countP Call.isUpdate = w.calls.countP Call.isUpdate := by
  have hcheck : checkPreconditions (some pc) (r.mapper.Internal.Assign updated)
      = some (.plain "failed uid precondition") := by
    simp [checkPreconditions, hU2, Assign_GetUID, hU1, hne]
  have hw1 : w1.calls = w.calls ++ [Call.Get (r.getClient ctx).scope name {}] := by
    have := congrArg (fun p => p.2.calls) hget
    simpa [Get_calls] using this.symm
  have hrun : r.Update ctx name objInfo createValidation updateValidation forceAllowCreate
      options w = (.done (.error (.plain "failed uid precondition")), w1) := by
    simp [restStorage.Update, (Get_of_backing r ctx name w w1 current hget).1, hupd, hpc, hcheck]
  rw [hrun]
  refine ⟨rfl, rfl, ?_⟩
  simp [hw1, List.countP_append, Call.isUpdate]

theorem C3_update_uid_precondition_witness :
    (sampleStorage.Update {} "a" keepsU1 acceptAll acceptAllUpdates false (some {})
        (world [stored "a" "u0"] [])).1 = .done (.error (.plain "failed uid precondition"))
    ∧ IsConflict (.plain "failed uid precondition") = false
    ∧ (sampleStorage.Update {} "a" keepsU1 acceptAll acceptAllUpdates false (some {})
          (world [stored "a" "u0"] [])).2.calls.countP Call.isUpdate
        = (world [stored "a" "u0"] []).calls.countP Call.isUpdate :=
  C3_update_uid_precondition sampleStorage {} "a" keepsU1 acceptAll acceptAllUpdates false
    (some {}) (world [stored "a" "u0"] [])
    { store := { objects := [stored "a" "u0"], failDelete := [] },
      calls := [Call.Get none "a" {}] }
    (stored "a" "u0") (stored "a" "u1") { UID := some "u2" } "u1" "u2"
    rfl rfl rfl rfl rfl (by decide)

/-- C4, on the code. `Update` of a name the backing store does not have, with
`forceAllowCreate = true` and an accepting `createValidation`: the code panics with a nil
pointer dereference inside `Create`, the backing `Create` is invoked zero times, and no created
object is returned. -/
theorem C4_create_on_update_panics :
    (sampleStorage.Get {} "a" none (world [] [])).1 = .error (notFound "a")
    ∧ IsNotFound (notFound "a") = true
    ∧ (sampleStorage.Update {} "a" keepsObject acceptAll acceptAllUpdates true (some {})
        (world [] [])).1 = .panicked nilDereference
    ∧ (sampleStorage.Update {} "a" keepsObject acceptAll acceptAllUpdates true (some {})
        (world [] [])).2.calls.countP Call.isCreate = 0
    ∧ (sampleStorage.Update {} "a" keepsObject acceptAll acceptAllUpdates true none
        (world [] [])).1 = .panicked nilDereference :=
  ⟨rfl, rfl, rfl, rfl, rfl⟩

/-- C5, counterexample. The backing `List` returns `a`, `b`, `c`; by the time `a` is deleted
the backing `Get` returns another revision of it; deleting `a` succeeds and deleting `b` fails.
The returned list holds the revision that `Get` fetched, which is not item 0 of the backing
list stamped with the external identity. -/
theorem C5_counterexample :
    (∃ w1, (revisingStorage.getClient {}).List {} threeObjects
        = (.ok { Object := some [],
                 Items := [stored "a" "u1", stored "b" "u2", stored "c" "u3"] }, w1))
    ∧ (revisingStorage.DeleteCollection {} acceptAll none none threeObjects).1
        = (some { Object := revisingStorage.NewList.Object,
                  Items := [extR.Assign (revised (stored "a" "u1"))] },
           some (.plain "cannot delete b"))
    ∧ [extR.Assign (revised (stored "a" "u1"))] ≠ [extR.Assign (stored "a" "u1")] := by
  refine ⟨⟨_, rfl⟩, rfl, ?_⟩
  intro h
  have h2 := congrArg (fun l => l.map fun o => getNestedString o.Object ["status"]) h
  revert h2
  decide

/-- C5, as amended. The backing `List` returns `n` items and `k < n`; deleting items `0..k-1`
succeeds (for each in turn the backing `Get` returns an object, the validation accepts it and
the backing `Delete` succeeds) and the `Delete` of item `k` fails with error `e`. Then
`DeleteCollection` returns, together with `e`, the list of exactly the `k` objects that `Get`
fetched for items `0..k-1`, in list order; every one of them carries the external `apiVersion`
and `kind` and is otherwise as fetched, and the list itself carries the external list
identity; they are items `0..k-1` stamped with the external identity whenever `Get` returns
the listed documents. It ends in the world reached by the failed `Delete` of item `k`, call log
included: nothing is attempted for items `k+1..n-1`. -/
theorem C5_delete_collection_partial_failure (r : restStorage σ) (ctx : Context)
    (deleteValidation : ValidateObjectFunc) (options : Option DeleteOptions)
    (listOptions : Option InternalListOptions) (lo : ListOptions) (w w1 wk wend : World σ)
    (ul : UnstructuredList) (fetched : List Unstructured) (k : Nat)
    (hk : k < ul.Items.length) (e : Err)
    (hlo : toMetaListOptions listOptions = .ok lo)
    (hlist : (r.getClient ctx).List lo w = (.ok ul, w1))
    (hpre : DeletesSucceed r ctx deleteValidation options (ul.Items.take k) fetched w1 wk)
    (hfail : r.Delete ctx (ul.Items[k]).GetName deleteValidation options wk = (.error e, wend)) :
    ∃ deleted : UnstructuredList,
      r.DeleteCollection ctx deleteValidation options listOptions w
        = ((some deleted, some e), wend)
      ∧ deleted.GetAPIVersion = r.mapper.External.GroupVersion.String
      ∧ deleted.GetKind = r.mapper.External.Kind ++ "List"
      ∧ deleted.Items.length = k
      ∧ List.Forall₂ (fun g o =>
          o.GetAPIVersion = r.mapper.External.GroupVersion.String
          ∧ o.GetKind = r.mapper.External.Kind
          ∧ ∀ key : String, key ≠ "apiVersion" → key ≠ "kind" → o.field key = g.field key)
          fetched deleted.Items
      ∧ (List.Forall₂ (fun g x => r.mapper.External.Assign g = r.mapper.External.Assign x)
            fetched (ul.Items.take k) →
          deleted.Items = (ul.Items.take k).map r.mapper.External.Assign) := by
  have hsplit : ul.Items = ul.Items.take k ++ ul.Items[k] :: ul.Items.drop (k + 1) := by
    rw [← List.drop_eq_getElem_cons hk, List.take_append_drop]
  have hrun := DeleteCollection_of_split r ctx deleteValidation options listOptions lo w w1 wk
    wend ul (ul.Items.take k) (ul.Items.drop (k + 1)) fetched ul.Items[k] e hlo hlist hsplit
    hpre hfail
  have hlen : fetched.length = k := by
    rw [DeletesSucceed_length r ctx deleteValidation options _ fetched w1 wk hpre,
      List.length_take]
    omega
  refine ⟨{ Object := r.NewList.Object, Items := fetched.map r.mapper.External.Assign }, hrun,
    (NewList_identity r).1, (NewList_identity r).2, ?_, ?_, ?_⟩
  · simp [hlen]
  · rw [List.forall₂_map_right_iff]
    apply List.forall₂_same.mpr
    intro g _
    exact ⟨Assign_GetAPIVersion _ _, Assign_GetKind _ _,
      fun key h₁ h₂ => Assign_field_other _ _ key h₁ h₂⟩
  · intro hsame
    exact map_Assign_of_same r.mapper.External _ _ hsame

theorem C5_delete_collection_partial_failure_witness :
    ∃ deleted : UnstructuredList,
      sampleStorage.DeleteCollection {} acceptAll none none threeObjects
        = ((some deleted, some (.plain "cannot delete b")),
           { store := { objects := [stored "b" "u2", stored "c" "u3"], failDelete := ["b"] },
             calls := [Call.List none {}, Call.Get none "a" {}, Call.Delete none "a" none,
                       Call.Get none "b" {}, Call.Delete none "b" none] })
      ∧ deleted.GetAPIVersion = sampleStorage.mapper.External.GroupVersion.String
      ∧ deleted.GetKind = sampleStorage.mapper.External.Kind ++ "List"
      ∧ deleted.Items.length = 1
      ∧ List.Forall₂ (fun g o =>
          o.GetAPIVersion = sampleStorage.mapper.External.GroupVersion.String
          ∧ o.GetKind = sampleStorage.mapper.External.Kind
          ∧ ∀ key : String, key ≠ "apiVersion" → key ≠ "kind" → o.field key = g.field key)
          [stored "a" "u1"] deleted.Items
      ∧ (List.Forall₂
            (fun g x => sampleStorage.mapper.External.Assign g
              = sampleStorage.mapper.External.Assign x)
            [stored "a" "u1"]
            ((UnstructuredList.mk (some [])
              [stored "a" "u1", stored "b" "u2", stored "c" "u3"]).Items.take 1) →
          deleted.Items
            = ((UnstructuredList.mk (some [])
                [stored "a" "u1", stored "b" "u2", stored "c" "u3"]).Items.take 1).map
                sampleStorage.mapper.External.Assign) :=
  C5_delete_collection_partial_failure sampleStorage {} acceptAll none none {} threeObjects
    { store := threeObjects.store, calls := [Call.List none {}] }
    { store := { objects := [stored "b" "u2", stored "c" "u3"], failDelete := ["b"] },
      calls := [Call.List none {}, Call.Get none "a" {}, Call.Delete none "a" none] }
    { store := { objects := [stored "b" "u2", stored "c" "u3"], failDelete := ["b"] },
      calls := [Call.List none {}, Call.Get none "a" {}, Call.Delete none "a" none,
                Call.Get none "b" {}, Call.Delete none "b" none] }
    { Object := some [], Items := [stored "a" "u1", stored "b" "u2", stored "c" "u3"] }
    [stored "a" "u1"] 1 (by decide) (.plain "cannot delete b") rfl rfl
    ((DeletesSucceed_cons sampleStorage {} acceptAll none (stored "a" "u1") (stored "a" "u1")
        [] [] _ _).2
      ⟨_, _, rfl, rfl, rfl, (DeletesSucceed_nil sampleStorage {} acceptAll none _ _).2 rfl⟩)
    rfl

/-- C6, on the code. The backing watch delivers 101 events before the consumer of the relay
that `Watch` opens receives any: the relay's sink is a `RaceFreeFakeWatcher`, whose channel
holds `DefaultChanSize` = 100 events, so the 101st `Action` panics with `channel full` and
`run` publishes no sequence of 101 events; receives that come after the burst do not help. -/
theorem C6_relay_panics_when_channel_full :
    (emitted burstTimeline).length = 101
    ∧ (∃ w1, sampleStorage.Watch {} none (world [] [])
        = (.ok (newWrappedWatcher extR.Assign {}), w1))
    ∧ watcher.run burstTimeline { w := newWrappedWatcher extR.Assign {}, received := [] }
        = .panicked "channel full"
    ∧ watcher.run (burstTimeline ++ List.replicate 101 .recv)
          { w := newWrappedWatcher extR.Assign {}, received := [] }
        = .panicked "channel full"
    ∧ ¬ ∃ s, watcher.run burstTimeline { w := newWrappedWatcher extR.Assign {}, received := [] }
        = .done s := by
  have hrun : watcher.run burstTimeline { w := newWrappedWatcher extR.Assign {}, received := [] }
      = .panicked "channel full" :=
    run_burst_panics _ 101 [] _ rfl rfl (by decide) (by decide)
  refine ⟨by decide, ⟨_, rfl⟩, hrun, ?_, ?_⟩
  · exact run_burst_panics _ 101 (List.replicate 101 .recv) _ rfl rfl (by decide) (by decide)
  · rintro ⟨s, hs⟩
    rw [hrun] at hs
    cases hs

/-- C7, on the code. `Delete` of a stored object, with an accepting validation and a backing
`Delete` that removes the object at once: the code returns the pre-delete object stamped with
the external identity and no error, the object is gone from the store, and the "immediate
deletion" flag is `false`, not `true`. -/
theorem C7_delete_reports_not_immediate :
    (sampleStorage.Delete {} "a" acceptAll none (world [stored "a" "u1"] [])).1
        = .ok (extR.Assign (stored "a" "u1"), false)
    ∧ (sampleStorage.Delete {} "a" acceptAll none (world [stored "a" "u1"] [])).2.store.objects
        = []
    ∧ (sampleStorage.Delete {} "a" acceptAll none (world [stored "a" "u1"] [])).2.calls
        = [Call.Get none "a" {}, Call.Delete none "a" none]
    ∧ (extR.Assign (stored "a" "u1")).GetAPIVersion = "apps.maisem.dev/v1"
    ∧ (extR.Assign (stored "a" "u1")).GetKind = "Deployment"
    ∧ (sampleStorage.Delete {} "a" acceptAll none (world [stored "a" "u1"] [])).1
        ≠ .ok (extR.Assign (stored "a" "u1"), true) := by
  have h : (sampleStorage.Delete {} "a" acceptAll none (world [stored "a" "u1"] [])).1
      = .ok (extR.Assign (stored "a" "u1"), false) := rfl
  refine ⟨h, rfl, rfl, by decide, by decide, ?_⟩
  rw [h]
  intro he
  injection he with he
  injection he with _ hb
  cases hb

/-- C8, on the code. `Create` of an accepted object with nil options: the code panics with a
nil pointer dereference at `*options`, and the backing `Create` is invoked zero times. -/
theorem C8_create_nil_options_panics :
    acceptAll (stored "a" "u1") = none
    ∧ (sampleStorage.Create {} (stored "a" "u1") acceptAll none (world [] [])).1
        = .panicked nilDereference
    ∧ (sampleStorage.Create {} (stored "a" "u1") acceptAll none
        (world [] [])).2.calls.countP Call.isCreate = 0 :=
  ⟨rfl, rfl, rfl⟩

/-- C9, on the code. `Update` of an existing object with an `updateValidation` that rejects
every update: the code never calls `updateValidation`, the backing `Update` is invoked once and
`Update` succeeds. -/
theorem C9_update_validation_not_invoked :
    (sampleStorage.Get {} "a" none (world [stored "a" "u1"] [])).1
        = .ok (extR.Assign (stored "a" "u1"))
    ∧ (∀ new old, rejectAllUpdates new old = some (.plain "update denied"))
    ∧ (sampleStorage.Update {} "a" keepsObject acceptAll rejectAllUpdates false (some {})
        (world [stored "a" "u1"] [])).1 = .done (.ok (extR.Assign (stored "a" "u1"), false))
    ∧ (sampleStorage.Update {} "a" keepsObject acceptAll rejectAllUpdates false (some {})
        (world [stored "a" "u1"] [])).2.calls.countP Call.isUpdate = 1 :=
  ⟨rfl, fun _ _ => rfl, rfl, rfl⟩

/-- C10, on the code. `AssignList` on a list holding one item whose map is nil (the zero value
`unstructured.Unstructured{}`): the list's own `apiVersion` and `kind` are set, and the item is
left with neither `apiVersion` nor `kind`; the same list served by the backing `List` comes
back from `List` with the item unstamped. -/
theorem C10_assignList_misses_nil_item :
    (extR.AssignList { Object := none, Items := [{ Object := none }] }).GetAPIVersion
        = "apps.maisem.dev/v1"
    ∧ (extR.AssignList { Object := none, Items := [{ Object := none }] }).GetKind
        = "DeploymentList"
    ∧ (extR.AssignList { Object := none, Items := [{ Object := none }] }).Items.map
        Unstructured.GetAPIVersion = [""]
    ∧ (extR.AssignList { Object := none, Items := [{ Object := none }] }).Items.map
        Unstructured.GetKind = [""]
    ∧ (∃ l, (sampleStorage.List {} none (world [{ Object := none }] [])).1 = .ok l
        ∧ l.Items.map Unstructured.GetAPIVersion = [""]
        ∧ l.Items.map Unstructured.GetKind = [""]) :=
  ⟨by decide, by decide, by decide, by decide, _, rfl, by decide, by decide⟩

/-- C11, counterexample. An adapter constructed with `namespaceScoped = false` and a request
context carrying the namespace `team-a`: `Get` dispatches to the handle scoped to `team-a`, not
to the cluster-scoped handle. -/
theorem C11_counterexample :
    clusterStorage.NamespaceScoped = false
    ∧ (clusterStorage.getClient teamA).scope = some "team-a"
    ∧ (clusterStorage.getClient teamA).scope ≠ none
    ∧ (clusterStorage.Get teamA "a" none (world [stored "a" "u1"] [])).2.calls
        = [Call.Get (some "team-a") "a" {}] :=
  ⟨rfl, rfl, by decide, rfl⟩

/-- C11, as amended. The backing handle of every operation is the one `getClient` picks, and
`getClient` picks it from the request context alone: the handle scoped to the context's
namespace when the context carries one, the cluster-scoped handle when it carries none. Every
call that `Get`, `List`, `Watch`, `Create`, `Update`, `Delete` and `DeleteCollection` make to
the backing client is made on that handle, and the `namespaceScoped` flag, which
`NamespaceScoped()` reports, has no part in it: no operation changes with the flag. -/
theorem C11_backing_handle_from_context (r : restStorage σ) (ctx : Context) (name : String)
    (obj : Unstructured) (objInfo : UpdatedObjectInfo) (validation : ValidateObjectFunc)
    (updateValidation : ValidateObjectUpdateFunc) (forceAllowCreate : Bool)
    (getOptions : Option GetOptions) (createOptions : Option CreateOptions)
    (updateOptions : Option UpdateOptions) (deleteOptions : Option DeleteOptions)
    (listOptions : Option InternalListOptions) (w : World σ) :
    (r.getClient ctx).scope = ctx.ns
    ∧ (r.getClient ctx).client = r.client
    ∧ (r.Get ctx name getOptions w).2.calls
        = w.calls ++ [Call.Get ctx.ns name (getOptions.getD {})]
    ∧ CallsScoped ctx.ns w (r.Get ctx name getOptions w).2
    ∧ CallsScoped ctx.ns w (r.List ctx listOptions w).2
    ∧ CallsScoped ctx.ns w (r.Watch ctx listOptions w).2
    ∧ CallsScoped ctx.ns w (r.Create ctx obj validation createOptions w).2
    ∧ CallsScoped ctx.ns w
        (r.Update ctx name objInfo validation updateValidation forceAllowCreate updateOptions
          w).2
    ∧ CallsScoped ctx.ns w (r.Delete ctx name validation deleteOptions w).2
    ∧ CallsScoped ctx.ns w (r.DeleteCollection ctx validation deleteOptions listOptions w).2
    ∧ (∀ b : Bool,
        ({ r with namespaceScoped := b } : restStorage σ).getClient ctx = r.getClient ctx
        ∧ ({ r with namespaceScoped := b } : restStorage σ).Get ctx name getOptions w
            = r.Get ctx name getOptions w
        ∧ ({ r with namespaceScoped := b } : restStorage σ).List ctx listOptions w
            = r.List ctx listOptions w
        ∧ ((({ r with namespaceScoped := b } : restStorage σ).Watch ctx listOptions w).2
            = (r.Watch ctx listOptions w).2)
        ∧ ({ r with namespaceScoped := b } : restStorage σ).Create ctx obj validation
              createOptions w
            = r.Create ctx obj validation createOptions w
        ∧ ({ r with namespaceScoped := b } : restStorage σ).Update ctx name objInfo validation
              updateValidation forceAllowCreate updateOptions w
            = r.Update ctx name objInfo validation updateValidation forceAllowCreate
                updateOptions w
        ∧ ({ r with namespaceScoped := b } : restStorage σ).Delete ctx name validation
              deleteOptions w
            = r.Delete ctx name validation deleteOptions w
        ∧ ({ r with namespaceScoped := b } : restStorage σ).DeleteCollection ctx validation
              deleteOptions listOptions w
            = r.DeleteCollection ctx validation deleteOptions listOptions w)
    ∧ r.NamespaceScoped = r.namespaceScoped := by
  have hscope := getClient_scope r ctx
  refine ⟨hscope, getClient_client r ctx, ?_, Get_scoped _ _ _ _ _, List_scoped _ _ _ _,
    Watch_scoped _ _ _ _, Create_scoped _ _ _ _ _ _, Update_scoped _ _ _ _ _ _ _ _ _,
    Delete_scoped _ _ _ _ _ _, DeleteCollection_scoped _ _ _ _ _ _, ?_, rfl⟩
  · have hcalls : ∀ o : GetOptions, ((r.getClient ctx).Get name o w).2.calls
        = w.calls ++ [Call.Get ctx.ns name o] := by
      intro o
      rw [Get_calls, hscope]
    cases getOptions with
    | none =>
      simp only [restStorage.Get, Option.getD_none]
      rw [← hcalls {}]
      split <;> simp_all
    | some o =>
      simp only [restStorage.Get, Option.getD_some]
      rw [← hcalls o]
      split <;> simp_all
  · intro b
    refine ⟨rfl, rfl, rfl, rfl, rfl, rfl, rfl, ?_⟩
    have hL : ({ r with namespaceScoped := b } : restStorage σ).List ctx listOptions w
        = r.List ctx listOptions w := rfl
    simp only [restStorage.DeleteCollection, hL]
    split
    · rfl
    · rename_i l w1 _
      have hN : ({ r with namespaceScoped := b } : restStorage σ).NewList = r.NewList := rfl
      rw [hN, deleteItems_flag r b ctx validation deleteOptions l.Items r.NewList w1]

/-- C12. From every state a relay reaches after `newWrappedWatcher` (running, stopped by the
closure of the backing channel, or stopped by an earlier `Stop()`), `Stop()` does not panic and
leaves the relay in state `Stopped` with its output closed exactly once and its buffered events
in place; a second `Stop()` does not panic and changes nothing; and on a relay that was stopped
already `Stop()` leaves the output as it was. -/
theorem C12_stop_idempotent (mapper : Unstructured → Unstructured) (wi : WatchHandle)
    (ops : List RelayOp) (s : Relay)
    (hreach : Relay.exec ops { w := newWrappedWatcher mapper wi, received := [] } = .done s) :
    ∃ w1, s.w.Stop = .done w1
      ∧ w1.state = .Stopped
      ∧ w1.wrapper.closes = 1
      ∧ w1.wrapper.result = s.w.wrapper.result
      ∧ w1.Stop = .done w1
      ∧ (s.w.state = .Stopped → w1.wrapper = s.w.wrapper) :=
  watcher_Stop_of_consistent s.w
    (exec_consistent ops _ s NewRaceFreeFake_consistent hreach)

theorem C12_stop_idempotent_witness :
    (∃ w1, runningRelay.w.Stop = .done w1
      ∧ w1.state = .Stopped
      ∧ w1.wrapper.closes = 1
      ∧ w1.wrapper.result = runningRelay.w.wrapper.result
      ∧ w1.Stop = .done w1
      ∧ (runningRelay.w.state = .Stopped → w1.wrapper = runningRelay.w.wrapper))
    ∧ (∃ w1, closedRelay.w.Stop = .done w1
      ∧ w1.state = .Stopped
      ∧ w1.wrapper.closes = 1
      ∧ w1.wrapper.result = closedRelay.w.wrapper.result
      ∧ w1.Stop = .done w1
      ∧ (closedRelay.w.state = .Stopped → w1.wrapper = closedRelay.w.wrapper))
    ∧ (∃ w1, stoppedRelay.w.Stop = .done w1
      ∧ w1.state = .Stopped
      ∧ w1.wrapper.closes = 1
      ∧ w1.wrapper.result = stoppedRelay.w.wrapper.result
      ∧ w1.Stop = .done w1
      ∧ (stoppedRelay.w.state = .Stopped → w1.wrapper = stoppedRelay.w.wrapper)) :=
  ⟨C12_stop_idempotent extR.Assign {} [.emit addedA] runningRelay rfl,
   C12_stop_idempotent extR.Assign {} [.emit addedA, .closure] closedRelay rfl,
   C12_stop_idempotent extR.Assign {} [.emit addedA, .stop] stoppedRelay rfl⟩

end ProxyApiserver
